/-
A verification development for the NetworkSim repository: a discrete-event
simulation of a tandem network of finite-capacity single-server queues.

The embedding is shallow.  Times and random draws are rationals (the Python
floats are only added, subtracted and compared in the code under study).
The numpy global pseudo-random stream consulted by np.random.exponential is
modelled as one process-wide function rng : Nat -> Rat together with a
cursor index threaded through every draw, mirroring the fact that every
ExpRandGenerator instance in the source is stateless and all draws come
from numpy's single global generator.  Fallible operations (the ValueError
raised by gen_random on a non-positive rate, Python IndexError on list
indexing) are modelled with Except String.
-/
import Mathlib

/-- Origin of an event.  In src/Event.py the origin is a free-form string;
the program only ever constructs the strings "Source {n}" (in
Source.gen_arrival) and the queue display names "Router Qk" (in
NetworkSimulation.run).  The dispatch test `"Source" in event.origin`
together with `int(event.origin.split()[1])` is therefore modelled by this
tagged sum: `source n` stands for the string "Source n", `router nm` for
the display name nm of a queue (none of the configured names contains the
substring "Source"). -/
inductive Origin where
  | source (n : Nat) : Origin
  | router (nm : String) : Origin
deriving DecidableEq

/-- Event record from src/Event.py: event_time, type, destination queue id,
origin.  Destinations are Python ints (Queue.NO_DESTINATION is -1), hence Int. -/
structure Event where
  event_time : ℚ
  type : Nat
  destination : Int
  origin : Origin
deriving DecidableEq

/-- Event.ARRIVAL = 1 in src/Event.py. -/
def Event.ARRIVAL : Nat := 1

/-- Event.DEPARTURE = 2 in src/Event.py. -/
def Event.DEPARTURE : Nat := 2

/-- Event.PACKET_DROP = 3 in src/Event.py. -/
def Event.PACKET_DROP : Nat := 3

/-- EventListManager.insert_event from src/EventListManager.py: scan the
deque left to right and insert the new event immediately before the first
existing event whose clock is greater than or equal to the new event's
clock (the source tests `event.get_event_clock() <= existing_event.get_event_clock()`);
append at the right end when no such event exists (this also covers the
initial `is_empty` early return). -/
def insert_event : List Event → Event → List Event
  | [], e => [e]
  | x :: xs, e =>
      if e.event_time ≤ x.event_time then e :: x :: xs
      else x :: insert_event xs e

/-- EventListManager.poll from src/EventListManager.py: pop the leftmost
event, or None when the list is empty.  Returns the popped event together
with the remaining list (the Python method mutates the deque in place). -/
def poll : List Event → Option Event × List Event
  | [] => (none, [])
  | e :: rest => (some e, rest)

/-- Class-level state of the EventListManager singleton pattern
(src/EventListManager.py).  `inst` models the class attribute `_instance`
(the identity of the stored instance, if any); `next_id` is a fresh-name
counter modelling Python object identity, so that distinct constructor
calls yield distinguishable instances. -/
structure ELMState where
  inst : Option Nat
  next_id : Nat
deriving DecidableEq

/-- EventListManager.__init__: raises when the class attribute `_instance`
is already set, otherwise produces a fresh instance.  Note that the
constructor itself never assigns `_instance`; only get_instance does. -/
def elm_construct (s : ELMState) : Except String (Nat × ELMState) :=
  match s.inst with
  | some _ => .error "Use EventListManager.get_instance() to get the singleton instance."
  | none => .ok (s.next_id, { s with next_id := s.next_id + 1 })

/-- EventListManager.get_instance: when `_instance` is None, call the
constructor (at which point `_instance` is still None, so it succeeds) and
then store the result in `_instance`; always return `_instance`. -/
def elm_get_instance (s : ELMState) : Except String (Nat × ELMState) :=
  match s.inst with
  | some i => .ok (i, s)
  | none =>
      match elm_construct s with
      | .error msg => .error msg
      | .ok (i, s') => .ok (i, { s' with inst := some i })

/-- ExpRandGenerator.gen_random from src/ExpRandomGenerator.py (the rate
parameter is written `lamda`, consistently with the guard `lamda <= 0` and
with the field Source.lamda; `lambda` is a Python keyword).  A non-positive
rate raises ValueError.  Otherwise the method returns
np.random.exponential(1.0 / lamda): a draw from numpy's process-wide global
generator.  That external collaborator is modelled by handing the function
the next value `draw` of the global stream; the draw is returned as is
(its Exponential distribution is outside the model, its nonnegativity is
assumed where a theorem needs it). -/
def gen_random (lamda : ℚ) (draw : ℚ) : Except String ℚ :=
  if lamda ≤ 0 then .error "Rate parameter must be positive."
  else .ok draw

/-- Queue state from src/Queue.py.  The deque `packets` stores pairs
(event, arrival_time) exactly as the source does; `is_busy` is the server
flag.  Counter and accumulator fields keep the source's names. -/
structure Queue where
  next_queues : List Int
  name : String
  size_limit : Nat
  total_waiting_time : ℚ
  total_transmission_time : ℚ
  total_batch_time : ℚ
  packets_offered : Nat
  packets_dropped : Nat
  packets_dropped_per_batch : Nat
  packets_transmitted : Nat
  packets : List (Event × ℚ)
  batch_means : List ℚ
  loss_ratios : List ℚ
  is_busy : Bool
deriving DecidableEq

/-- Queue.MU = 12500000, the fixed transmission rate. -/
def Queue.MU : ℚ := 12500000

/-- Queue.NO_DESTINATION = -1. -/
def Queue.NO_DESTINATION : Int := -1

/-- Queue.__init__: fresh queue with zeroed statistics, empty deques and an
idle server. -/
def mkQueue (next_queues : List Int) (name : String) (size_limit : Nat) : Queue :=
  { next_queues := next_queues, name := name, size_limit := size_limit
    total_waiting_time := 0, total_transmission_time := 0, total_batch_time := 0
    packets_offered := 0, packets_dropped := 0, packets_dropped_per_batch := 0
    packets_transmitted := 0, packets := [], batch_means := [], loss_ratios := []
    is_busy := false }

/-- Queue.calc_loss_ratio from src/Queue.py (name pluralised here): when
packets_offered > 0, append packets_dropped_per_batch / 5000 to the
loss_ratios deque and reset the per-batch drop counter. -/
def calc_loss_ratios (q : Queue) : Queue :=
  if q.packets_offered > 0 then
    { q with loss_ratios := q.loss_ratios ++ [(q.packets_dropped_per_batch : ℚ) / 5000]
             packets_dropped_per_batch := 0 }
  else q

/-- Queue.calc_batch_times from src/Queue.py: when packets_transmitted > 0,
append total_batch_time / 5000 to batch_means and reset the accumulator. -/
def calc_batch_times (q : Queue) : Queue :=
  if q.packets_transmitted > 0 then
    { q with batch_means := q.batch_means ++ [q.total_batch_time / 5000]
             total_batch_time := 0 }
  else q

/-- First two statements of Queue.add_packet: `self.packets_offered += 1`
followed by the every-5000th-offered batch closure. -/
def bumpOffered (q : Queue) : Queue :=
  let q := { q with packets_offered := q.packets_offered + 1 }
  if q.packets_offered % 5000 = 0 then calc_loss_ratios q else q

/-- First two statements of Queue.remove_packet: `self.packets_transmitted += 1`
followed by the every-5000th-transmitted batch closure. -/
def bumpTransmitted (q : Queue) : Queue :=
  let q := { q with packets_transmitted := q.packets_transmitted + 1 }
  if q.packets_transmitted % 5000 = 0 then calc_batch_times q else q

/-- Queue.add_packet from src/Queue.py.  After the offered-counter bump and
possible batch closure: a full waiting deque drops the packet and returns
-1.0; an idle server starts service, drawing a transmission time from the
global stream at rate MU, and returns that time; otherwise the packet is
appended to the waiting deque as (event, event.get_event_clock()) and -1.0
is returned.  `current_time` is accepted and unused exactly as in the
source.  The stream cursor `idx` advances only when a draw happens. -/
def add_packet (q0 : Queue) (event : Event) (current_time : ℚ) (rng : Nat → ℚ)
    (idx : Nat) : Except String (Queue × ℚ × Nat) :=
  let q := bumpOffered q0
  if q.packets.length = q.size_limit then
    .ok ({ q with packets_dropped := q.packets_dropped + 1
                  packets_dropped_per_batch := q.packets_dropped_per_batch + 1 }, -1, idx)
  else if q.is_busy = false then
    match gen_random Queue.MU (rng idx) with
    | .error msg => .error msg
    | .ok transmission_time =>
        .ok ({ q with is_busy := true
                      total_transmission_time := q.total_transmission_time + transmission_time
                      total_batch_time := q.total_batch_time + transmission_time },
             transmission_time, idx + 1)
  else
    .ok ({ q with packets := q.packets ++ [(event, event.event_time)] }, -1, idx)

/-- Queue.remove_packet from src/Queue.py.  After the transmitted-counter
bump and possible batch closure: an empty waiting deque idles the server
and returns -1.0; otherwise the oldest waiting packet is popped, its
waiting time (clamped at zero when negative) is accumulated, a new
transmission time is drawn at rate MU, accumulated, and returned. -/
def remove_packet (q0 : Queue) (current_time : ℚ) (rng : Nat → ℚ) (idx : Nat) :
    Except String (Queue × ℚ × Nat) :=
  let q := bumpTransmitted q0
  match q.packets with
  | [] => .ok ({ q with is_busy := false }, -1, idx)
  | (_, arrival_time) :: rest =>
      let waiting_time := current_time - arrival_time
      let waiting_time := if waiting_time < 0 then 0 else waiting_time
      match gen_random Queue.MU (rng idx) with
      | .error msg => .error msg
      | .ok transmission_time =>
          .ok ({ q with packets := rest
                        total_waiting_time := q.total_waiting_time + waiting_time
                        total_transmission_time := q.total_transmission_time + transmission_time
                        total_batch_time := q.total_batch_time + (waiting_time + transmission_time) },
               transmission_time, idx + 1)

/-- Source record from src/Source.py: offered load in Erlangs, destination
queue id, and the derived arrival rate lamda = 12500000 * erlangs. -/
structure Source where
  erlangs : ℚ
  destination : Int
  lamda : ℚ
deriving DecidableEq

/-- Source.__init__. -/
def mkSource (erlangs : ℚ) (destination : Int) : Source :=
  { erlangs := erlangs, destination := destination, lamda := 12500000 * erlangs }

/-- Source.gen_arrival: draw an inter-arrival interval at rate lamda from
the global stream and return an ARRIVAL event at current_time + interval
with origin "Source source_num". -/
def gen_arrival (src : Source) (current_time : ℚ) (source_num : Nat)
    (rng : Nat → ℚ) (idx : Nat) : Except String (Event × Nat) :=
  match gen_random src.lamda (rng idx) with
  | .error msg => .error msg
  | .ok inter_arrival =>
      .ok ({ event_time := current_time + inter_arrival, type := Event.ARRIVAL
             destination := src.destination, origin := Origin.source source_num },
           idx + 1)

/-- Reachability of one Queue under an arbitrary interleaving of successful
add_packet (packet arrival) and remove_packet (packet departure) calls,
the stream cursor threaded through.  This is the set of states a queue can
be put in by any caller whatsoever. -/
inductive QueueReach (rng : Nat → ℚ) : Queue × Nat → Queue × Nat → Prop
  | refl (s : Queue × Nat) : QueueReach rng s s
  | arrive {s : Queue × Nat} {q : Queue} {i : Nat} {e : Event} {t : ℚ}
      {q' : Queue} {r : ℚ} {i' : Nat} :
      QueueReach rng s (q, i) → add_packet q e t rng i = Except.ok (q', r, i') →
      QueueReach rng s (q', i')
  | depart {s : Queue × Nat} {q : Queue} {i : Nat} {t : ℚ}
      {q' : Queue} {r : ℚ} {i' : Nat} :
      QueueReach rng s (q, i) → remove_packet q t rng i = Except.ok (q', r, i') →
      QueueReach rng s (q', i')

/-- One entry of NetworkSimulation.processed_events: the clock value at the
moment of logging, the action string ("POLLED" or "SCHEDULED"), and the
event (the source logs str(event), which renders the event's type, time,
destination and origin; the record itself is kept here). -/
abbrev LogEntry := ℚ × String × Event

/-- State of NetworkSimulation (src/simulation/NetworkSimulation.py)
together with the cursor `ridx` into the process-wide random stream. -/
structure SimState where
  global_time : ℚ
  packets_arrived : Nat
  max_arrivals : Nat
  event_list : List Event
  queues : List Queue
  sources : List Source
  processed_events : List LogEntry
  ridx : Nat

/-- The fan-out loop at the end of the DEPARTURE branch of
NetworkSimulation.run: for every next-queue id other than NO_DESTINATION,
insert an ARRIVAL event at the current time with the departing queue's name
as origin, and log it as SCHEDULED. -/
def fanout (t : ℚ) (nm : String) : List Int → List Event → List LogEntry →
    List Event × List LogEntry
  | [], el, lg => (el, lg)
  | nq :: rest, el, lg =>
      if nq = Queue.NO_DESTINATION then fanout t nm rest el lg
      else
        let arr : Event := { event_time := t, type := Event.ARRIVAL
                             destination := nq, origin := Origin.router nm }
        fanout t nm rest (insert_event el arr) (lg ++ [(t, "SCHEDULED", arr)])

/-- One iteration of the while loop of NetworkSimulation.run.  Returns
`none` when the loop exits (arrival budget reached, or the event list is
empty).  Python list indexing out of range is an IndexError; destinations
are nonnegative for every event this program constructs (queue ids 0-7
from the topology), so Python's negative-index aliasing is unexercised and
negative indices are likewise modelled as an index error.  Everything else
follows the source line by line: log the polled event against the old
clock, advance the clock to the event's time, dispatch on the event type,
schedule a departure exactly when the returned transmission time exceeds
-1, and (for a source-originated arrival) schedule that source's next
arrival and count it against the budget. -/
def simStep (rng : Nat → ℚ) (s : SimState) : Except String (Option SimState) :=
  if s.packets_arrived < s.max_arrivals then
    match s.event_list with
    | [] => .ok none
    | event :: rest =>
      let log0 := s.processed_events ++ [(s.global_time, "POLLED", event)]
      let t := event.event_time
      if event.type = Event.ARRIVAL then
        if 0 ≤ event.destination then
          match s.queues[event.destination.toNat]? with
          | none => .error "IndexError"
          | some q =>
            match add_packet q event t rng s.ridx with
            | .error msg => .error msg
            | .ok (q', return_time, idx1) =>
              let queues' := s.queues.set event.destination.toNat q'
              let dep : Event := { event_time := t + return_time, type := Event.DEPARTURE
                                   destination := event.destination
                                   origin := Origin.router q'.name }
              let elist1 := if -1 < return_time then insert_event rest dep else rest
              let log1 := if -1 < return_time then log0 ++ [(t, "SCHEDULED", dep)] else log0
              match event.origin with
              | Origin.source n =>
                match s.sources[n]? with
                | none => .error "IndexError"
                | some src =>
                  match gen_arrival src t n rng idx1 with
                  | .error msg => .error msg
                  | .ok (new_arrival, idx2) =>
                    .ok (some { global_time := t
                                packets_arrived := s.packets_arrived + 1
                                max_arrivals := s.max_arrivals
                                event_list := insert_event elist1 new_arrival
                                queues := queues'
                                sources := s.sources
                                processed_events := log1 ++ [(t, "SCHEDULED", new_arrival)]
                                ridx := idx2 })
              | Origin.router _ =>
                .ok (some { global_time := t
                            packets_arrived := s.packets_arrived
                            max_arrivals := s.max_arrivals
                            event_list := elist1
                            queues := queues'
                            sources := s.sources
                            processed_events := log1
                            ridx := idx1 })
        else .error "IndexError"
      else if event.type = Event.DEPARTURE then
        if 0 ≤ event.destination then
          match s.queues[event.destination.toNat]? with
          | none => .error "IndexError"
          | some q =>
            match remove_packet q t rng s.ridx with
            | .error msg => .error msg
            | .ok (q', return_time, idx1) =>
              let queues' := s.queues.set event.destination.toNat q'
              let dep : Event := { event_time := t + return_time, type := Event.DEPARTURE
                                   destination := event.destination
                                   origin := Origin.router q'.name }
              let elist1 := if -1 < return_time then insert_event rest dep else rest
              let log1 := if -1 < return_time then log0 ++ [(t, "SCHEDULED", dep)] else log0
              let fan := fanout t q'.name q'.next_queues elist1 log1
              .ok (some { global_time := t
                          packets_arrived := s.packets_arrived
                          max_arrivals := s.max_arrivals
                          event_list := fan.1
                          queues := queues'
                          sources := s.sources
                          processed_events := fan.2
                          ridx := idx1 })
        else .error "IndexError"
      else
        .ok (some { s with global_time := t, event_list := rest, processed_events := log0 })
  else .ok none

/-- Iterate simStep for at most `fuel` loop iterations, stopping early when
the loop exits on its own. -/
def runSim (rng : Nat → ℚ) : Nat → SimState → Except String SimState
  | 0, s => .ok s
  | fuel + 1, s =>
      match simStep rng s with
      | .error msg => .error msg
      | .ok none => .ok s
      | .ok (some s') => runSim rng fuel s'

/-- The four sources of NetworkSimulation.__init__: (erlangs, destination)
= (0.5, ONE_A), (0.3, ONE_A), (0.4, ONE_B), (0.2, TWO_A). -/
def initSources : List Source :=
  [mkSource (1/2) 0, mkSource (3/10) 0, mkSource (2/5) 1, mkSource (1/5) 2]

/-- The eight queues of NetworkSimulation.__init__, listed by their queue
constants ONE_A = 0 .. FOUR_A = 7, each with its next-queue list, display
name and capacity 10. -/
def initQueues : List Queue :=
  [mkQueue [1, 2] "Router Q0" 10,
   mkQueue [3] "Router Q1" 10,
   mkQueue [4, 5] "Router Q2" 10,
   mkQueue [6] "Router Q3" 10,
   mkQueue [] "Router Q4" 10,
   mkQueue [7] "Router Q5" 10,
   mkQueue [] "Router Q6" 10,
   mkQueue [] "Router Q7" 10]

/-- The loop body of NetworkSimulation.gen_init_packets: for each source
(with its index), generate one initial arrival at the current clock,
insert it, and count it against the arrival budget. -/
def genInitAux (rng : Nat → ℚ) : List Source → Nat → SimState → Except String SimState
  | [], _, s => .ok s
  | src :: rest, i, s =>
      match gen_arrival src s.global_time i rng s.ridx with
      | .error msg => .error msg
      | .ok (arrival_event, idx') =>
          genInitAux rng rest (i + 1)
            { s with event_list := insert_event s.event_list arrival_event
                     packets_arrived := s.packets_arrived + 1
                     ridx := idx' }

/-- NetworkSimulation.__init__ followed by gen_init_packets (the first
statement of run): clock 0, empty event list, the configured queues and
sources, then one initial arrival per source. -/
def initSim (rng : Nat → ℚ) (max_arrivals : Nat) : Except String SimState :=
  genInitAux rng initSources 0
    { global_time := 0, packets_arrived := 0, max_arrivals := max_arrivals
      event_list := [], queues := initQueues, sources := initSources
      processed_events := [], ridx := 0 }

/-- A whole simulation run: initialisation followed by at most `fuel` loop
iterations. -/
def runFromInit (rng : Nat → ℚ) (max_arrivals fuel : Nat) : Except String SimState :=
  match initSim rng max_arrivals with
  | .error msg => .error msg
  | .ok s₀ => runSim rng fuel s₀

/-- The (time, kind, destination, origin) tuple of one logged event. -/
def eventTuple (x : LogEntry) : ℚ × Nat × Int × Origin :=
  (x.2.2.event_time, x.2.2.type, x.2.2.destination, x.2.2.origin)

/-- The sequence of processed (time, kind, destination, origin) tuples of a
whole run. -/
def runTuples (rng : Nat → ℚ) (max_arrivals fuel : Nat) :
    Except String (List (ℚ × Nat × Int × Origin)) :=
  match runFromInit rng max_arrivals fuel with
  | .error msg => .error msg
  | .ok s => .ok (s.processed_events.map eventTuple)

/-- Events of the POLLED entries of a log, in order: the sequence of events
dequeued so far. -/
def polledOf (l : List LogEntry) : List Event :=
  (l.filter (fun x => x.2.1 == "POLLED")).map (fun x => x.2.2)

/-- The sequence of events dequeued so far in a simulation state. -/
def polledEvents (s : SimState) : List Event :=
  polledOf s.processed_events

/-- Chronological comparison of two events. -/
def Rle (a b : Event) : Prop := a.event_time ≤ b.event_time

/-- Packet conservation for one queue: offered packets are partitioned into
dropped, transmitted, waiting and (at most one) in service. -/
def conserves (q : Queue) : Prop :=
  q.packets_offered =
    q.packets_dropped + q.packets_transmitted + q.packets.length +
      (if q.is_busy then 1 else 0)

instance conserves.dec : DecidablePred conserves := fun q => by
  unfold conserves
  infer_instance

/-- One when the server is busy, zero when idle. -/
def busyBit (q : Queue) : Nat := if q.is_busy then 1 else 0

/-- Number of DEPARTURE events for destination d in an event list. -/
def depCount (d : Int) (l : List Event) : Nat :=
  l.countP (fun e => decide (e.type = Event.DEPARTURE ∧ e.destination = d))

/-- The simulation-loop invariant: the future event list is chronologically
sorted and never earlier than the clock; the dequeued-event log is
chronologically sorted and never later than the clock; every queue
conserves packets; and every queue has exactly one pending DEPARTURE event
when busy and none when idle. -/
def SimInv (s : SimState) : Prop :=
  List.Pairwise Rle s.event_list ∧
  (∀ e ∈ s.event_list, s.global_time ≤ e.event_time) ∧
  List.Pairwise Rle (polledEvents s) ∧
  (∀ e ∈ polledEvents s, e.event_time ≤ s.global_time) ∧
  (∀ q ∈ s.queues, conserves q) ∧
  (∀ i : Fin s.queues.length, depCount (i.1 : Int) s.event_list = busyBit (s.queues.get i))

/-- A concrete random stream every draw of which is 1. -/
def oneRng : Nat → ℚ := fun _ => 1

/-- Unpack a successful run, with an explicit fallback state. -/
def okD (r : Except String SimState) (d : SimState) : SimState :=
  match r with
  | .ok s => s
  | .error _ => d

/-- An empty simulation state, used only as the fallback of okD. -/
def emptySim : SimState :=
  { global_time := 0, packets_arrived := 0, max_arrivals := 0, event_list := []
    queues := [], sources := [], processed_events := [], ridx := 0 }

/-- Scenario of section 8 of the specification: one queue of capacity 1,
arrivals at t = 0, t = 0.00001 and a third before the first departure,
the service duration drawn as 1.0 (oneRng).  The three arrivals are offered
in sequence and the run records, per call: the returned value, the drop
counter after the call, and the waiting-deque length after the call. -/
def c5_run : Except String (List ℚ × List Nat × List Nat) :=
  let e1 : Event := { event_time := 0, type := Event.ARRIVAL, destination := 0
                      origin := Origin.source 0 }
  let e2 : Event := { event_time := 1/100000, type := Event.ARRIVAL, destination := 0
                      origin := Origin.source 0 }
  let e3 : Event := { event_time := 2/100000, type := Event.ARRIVAL, destination := 0
                      origin := Origin.source 0 }
  match add_packet (mkQueue [] "Router Q0" 1) e1 0 oneRng 0 with
  | .error msg => .error msg
  | .ok (q1, r1, i1) =>
    match add_packet q1 e2 (1/100000) oneRng i1 with
    | .error msg => .error msg
    | .ok (q2, r2, i2) =>
      match add_packet q2 e3 (2/100000) oneRng i2 with
      | .error msg => .error msg
      | .ok (q3, r3, _) =>
          .ok ([r1, r2, r3],
               [q1.packets_dropped, q2.packets_dropped, q3.packets_dropped],
               [q1.packets.length, q2.packets.length, q3.packets.length])

/-- A queue with waiting capacity 0: every offered packet finds the waiting
deque at its size limit and is dropped. -/
def c6_q0 : Queue := mkQueue [] "Router Q0" 0

/-- Offer n packets in sequence to a queue (the same arrival event each
time; add_packet only reads its clock), threading the stream cursor. -/
def addN (q : Queue) (i : Nat) (rng : Nat → ℚ) : Nat → Except String (Queue × Nat)
  | 0 => .ok (q, i)
  | n + 1 =>
      match addN q i rng n with
      | .error msg => .error msg
      | .ok (q', i') =>
          match add_packet q' { event_time := 0, type := Event.ARRIVAL
                                destination := 0, origin := Origin.source 0 } 0 rng i' with
          | .error msg => .error msg
          | .ok (q'', _, i'') => .ok (q'', i'')

/-- A concrete arrival event at time 1 with origin Source 0. -/
def evA : Event :=
  { event_time := 1, type := Event.ARRIVAL, destination := 0, origin := Origin.source 0 }

/-- A concrete arrival event at time 1 with origin Source 1. -/
def evB : Event :=
  { event_time := 1, type := Event.ARRIVAL, destination := 0, origin := Origin.source 1 }

/-- A capacity-0 queue primed one packet short of a batch closure, with 7
drops recorded in the current batch. -/
def c6w_q : Queue :=
  { c6_q0 with packets_offered := 4999, packets_dropped_per_batch := 7 }

/-- The state of c6w_q after one more offered (and dropped) packet: the
batch closes recording 7/5000, the per-batch counter is reset and then
incremented by the drop of the very packet that closed the batch. -/
def c6w_q2 : Queue :=
  { c6_q0 with
    packets_offered := 5000
    packets_dropped := 1
    packets_dropped_per_batch := 1
    loss_ratios := [(7 : ℚ) / 5000] }

/-- The capacity-0 queue after 5000 offered (all dropped) packets: the one
recorded batch value is 4999/5000 and the 5000th drop has moved into the
next batch's counter. -/
def c6_final : Queue :=
  { c6_q0 with
    packets_offered := 5000
    packets_dropped := 5000
    packets_dropped_per_batch := 1
    loss_ratios := [(4999 : ℚ) / 5000] }

/-- The four initial arrival events generated by gen_init_packets under
the all-ones stream: each source draws inter-arrival 1 from clock 0. -/
def ev0 : Event :=
  { event_time := 1, type := Event.ARRIVAL, destination := 0, origin := Origin.source 0 }

/-- Initial arrival of Source 1 (destination ONE_A). -/
def ev1 : Event :=
  { event_time := 1, type := Event.ARRIVAL, destination := 0, origin := Origin.source 1 }

/-- Initial arrival of Source 2 (destination ONE_B). -/
def ev2 : Event :=
  { event_time := 1, type := Event.ARRIVAL, destination := 1, origin := Origin.source 2 }

/-- Initial arrival of Source 3 (destination TWO_A). -/
def ev3 : Event :=
  { event_time := 1, type := Event.ARRIVAL, destination := 2, origin := Origin.source 3 }

/-- The simulation state right after initialisation under the all-ones
stream: four equal-time arrivals, each inserted in front of the earlier
ones (the insert places an event before any event of equal clock). -/
def c4s0 : SimState :=
  { global_time := 0, packets_arrived := 4, max_arrivals := 10000
    event_list := [ev3, ev2, ev1, ev0], queues := initQueues, sources := initSources
    processed_events := [], ridx := 4 }

theorem gen_random_MU (x : ℚ) : gen_random Queue.MU x = Except.ok x := by
  unfold gen_random Queue.MU
  norm_num

theorem insert_event_perm (e : Event) : ∀ l : List Event, (insert_event l e).Perm (e :: l)
  | [] => List.Perm.refl _
  | x :: xs => by
      unfold insert_event
      split
      · exact List.Perm.refl _
      · exact ((insert_event_perm e xs).cons x).trans (List.Perm.swap e x xs)

theorem mem_insert_event {a e : Event} {l : List Event} :
    a ∈ insert_event l e ↔ a = e ∨ a ∈ l := by
  rw [(insert_event_perm e l).mem_iff, List.mem_cons]

theorem pairwise_insert_event (e : Event) :
    ∀ l : List Event, l.Pairwise Rle → (insert_event l e).Pairwise Rle := by
  intro l
  induction l with
  | nil =>
      intro _
      simp [insert_event]
  | cons x xs ih =>
      intro h
      rw [List.pairwise_cons] at h
      obtain ⟨hx, hxs⟩ := h
      unfold insert_event
      split
      case isTrue hle =>
        rw [List.pairwise_cons]
        refine ⟨?_, List.pairwise_cons.mpr ⟨hx, hxs⟩⟩
        intro y hy
        rcases List.mem_cons.mp hy with rfl | hy'
        · exact hle
        · exact le_trans hle (hx y hy')
      case isFalse hgt =>
        rw [List.pairwise_cons]
        refine ⟨?_, ih hxs⟩
        intro y hy
        rcases mem_insert_event.mp hy with rfl | hy'
        · exact le_of_not_le hgt
        · exact hx y hy'

theorem lb_insert_event {c : ℚ} {l : List Event} {e : Event}
    (hl : ∀ x ∈ l, c ≤ x.event_time) (he : c ≤ e.event_time) :
    ∀ x ∈ insert_event l e, c ≤ x.event_time := by
  intro x hx
  rcases mem_insert_event.mp hx with rfl | h
  · exact he
  · exact hl x h

theorem depCount_insert (d : Int) (l : List Event) (e : Event) :
    depCount d (insert_event l e) =
      depCount d l + (if e.type = Event.DEPARTURE ∧ e.destination = d then 1 else 0) := by
  unfold depCount
  rw [(insert_event_perm e l).countP_eq, List.countP_cons]
  simp

theorem depCount_cons (d : Int) (l : List Event) (e : Event) :
    depCount d (e :: l) =
      depCount d l + (if e.type = Event.DEPARTURE ∧ e.destination = d then 1 else 0) := by
  unfold depCount
  rw [List.countP_cons]
  simp

@[simp] theorem bumpOffered_packets (q : Queue) : (bumpOffered q).packets = q.packets := by
  unfold bumpOffered calc_loss_ratios
  dsimp only
  split
  · split <;> rfl
  · rfl

@[simp] theorem bumpOffered_is_busy (q : Queue) : (bumpOffered q).is_busy = q.is_busy := by
  unfold bumpOffered calc_loss_ratios
  dsimp only
  split
  · split <;> rfl
  · rfl

@[simp] theorem bumpOffered_size_limit (q : Queue) : (bumpOffered q).size_limit = q.size_limit := by
  unfold bumpOffered calc_loss_ratios
  dsimp only
  split
  · split <;> rfl
  · rfl

@[simp] theorem bumpOffered_name (q : Queue) : (bumpOffered q).name = q.name := by
  unfold bumpOffered calc_loss_ratios
  dsimp only
  split
  · split <;> rfl
  · rfl

@[simp] theorem bumpOffered_next_queues (q : Queue) : (bumpOffered q).next_queues = q.next_queues := by
  unfold bumpOffered calc_loss_ratios
  dsimp only
  split
  · split <;> rfl
  · rfl

@[simp] theorem bumpOffered_packets_dropped (q : Queue) :
    (bumpOffered q).packets_dropped = q.packets_dropped := by
  unfold bumpOffered calc_loss_ratios
  dsimp only
  split
  · split <;> rfl
  · rfl

@[simp] theorem bumpOffered_packets_transmitted (q : Queue) :
    (bumpOffered q).packets_transmitted = q.packets_transmitted := by
  unfold bumpOffered calc_loss_ratios
  dsimp only
  split
  · split <;> rfl
  · rfl

@[simp] theorem bumpOffered_packets_offered (q : Queue) :
    (bumpOffered q).packets_offered = q.packets_offered + 1 := by
  unfold bumpOffered calc_loss_ratios
  dsimp only
  split
  · split <;> rfl
  · rfl

@[simp] theorem bumpOffered_total_waiting_time (q : Queue) :
    (bumpOffered q).total_waiting_time = q.total_waiting_time := by
  unfold bumpOffered calc_loss_ratios
  dsimp only
  split
  · split <;> rfl
  · rfl

@[simp] theorem bumpOffered_total_transmission_time (q : Queue) :
    (bumpOffered q).total_transmission_time = q.total_transmission_time := by
  unfold bumpOffered calc_loss_ratios
  dsimp only
  split
  · split <;> rfl
  · rfl

@[simp] theorem bumpOffered_total_batch_time (q : Queue) :
    (bumpOffered q).total_batch_time = q.total_batch_time := by
  unfold bumpOffered calc_loss_ratios
  dsimp only
  split
  · split <;> rfl
  · rfl

@[simp] theorem bumpOffered_batch_means (q : Queue) :
    (bumpOffered q).batch_means = q.batch_means := by
  unfold bumpOffered calc_loss_ratios
  dsimp only
  split
  · split <;> rfl
  · rfl

@[simp] theorem bumpTransmitted_packets (q : Queue) : (bumpTransmitted q).packets = q.packets := by
  unfold bumpTransmitted calc_batch_times
  dsimp only
  split
  · split <;> rfl
  · rfl

@[simp] theorem bumpTransmitted_is_busy (q : Queue) : (bumpTransmitted q).is_busy = q.is_busy := by
  unfold bumpTransmitted calc_batch_times
  dsimp only
  split
  · split <;> rfl
  · rfl

@[simp] theorem bumpTransmitted_size_limit (q : Queue) :
    (bumpTransmitted q).size_limit = q.size_limit := by
  unfold bumpTransmitted calc_batch_times
  dsimp only
  split
  · split <;> rfl
  · rfl

@[simp] theorem bumpTransmitted_name (q : Queue) : (bumpTransmitted q).name = q.name := by
  unfold bumpTransmitted calc_batch_times
  dsimp only
  split
  · split <;> rfl
  · rfl

@[simp] theorem bumpTransmitted_next_queues (q : Queue) :
    (bumpTransmitted q).next_queues = q.next_queues := by
  unfold bumpTransmitted calc_batch_times
  dsimp only
  split
  · split <;> rfl
  · rfl

@[simp] theorem bumpTransmitted_packets_offered (q : Queue) :
    (bumpTransmitted q).packets_offered = q.packets_offered := by
  unfold bumpTransmitted calc_batch_times
  dsimp only
  split
  · split <;> rfl
  · rfl

@[simp] theorem bumpTransmitted_packets_dropped (q : Queue) :
    (bumpTransmitted q).packets_dropped = q.packets_dropped := by
  unfold bumpTransmitted calc_batch_times
  dsimp only
  split
  · split <;> rfl
  · rfl

@[simp] theorem bumpTransmitted_packets_dropped_per_batch (q : Queue) :
    (bumpTransmitted q).packets_dropped_per_batch = q.packets_dropped_per_batch := by
  unfold bumpTransmitted calc_batch_times
  dsimp only
  split
  · split <;> rfl
  · rfl

@[simp] theorem bumpTransmitted_loss_ratios (q : Queue) :
    (bumpTransmitted q).loss_ratios = q.loss_ratios := by
  unfold bumpTransmitted calc_batch_times
  dsimp only
  split
  · split <;> rfl
  · rfl

@[simp] theorem bumpTransmitted_packets_transmitted (q : Queue) :
    (bumpTransmitted q).packets_transmitted = q.packets_transmitted + 1 := by
  unfold bumpTransmitted calc_batch_times
  dsimp only
  split
  · split <;> rfl
  · rfl

theorem add_packet_drop {q0 : Queue} {e : Event} {t : ℚ} {rng : Nat → ℚ} {i : Nat}
    (h : q0.packets.length = q0.size_limit) :
    add_packet q0 e t rng i =
      Except.ok ({ bumpOffered q0 with
                   packets_dropped := (bumpOffered q0).packets_dropped + 1
                   packets_dropped_per_batch := (bumpOffered q0).packets_dropped_per_batch + 1 },
                 -1, i) := by
  unfold add_packet
  dsimp only
  rw [if_pos (by simp [h])]

theorem add_packet_serve {q0 : Queue} {e : Event} {t : ℚ} {rng : Nat → ℚ} {i : Nat}
    (h1 : q0.packets.length ≠ q0.size_limit) (h2 : q0.is_busy = false) :
    add_packet q0 e t rng i =
      Except.ok ({ bumpOffered q0 with
                   is_busy := true
                   total_transmission_time := (bumpOffered q0).total_transmission_time + rng i
                   total_batch_time := (bumpOffered q0).total_batch_time + rng i },
                 rng i, i + 1) := by
  unfold add_packet
  dsimp only
  rw [if_neg (by simp [h1]), if_pos (by simp [h2]), gen_random_MU]

theorem add_packet_enqueue {q0 : Queue} {e : Event} {t : ℚ} {rng : Nat → ℚ} {i : Nat}
    (h1 : q0.packets.length ≠ q0.size_limit) (h2 : q0.is_busy = true) :
    add_packet q0 e t rng i =
      Except.ok ({ bumpOffered q0 with
                   packets := (bumpOffered q0).packets ++ [(e, e.event_time)] },
                 -1, i) := by
  unfold add_packet
  dsimp only
  rw [if_neg (by simp [h1]), if_neg (by simp [h2])]

theorem remove_packet_idle {q0 : Queue} {t : ℚ} {rng : Nat → ℚ} {i : Nat}
    (h : q0.packets = []) :
    remove_packet q0 t rng i =
      Except.ok ({ bumpTransmitted q0 with is_busy := false }, -1, i) := by
  unfold remove_packet
  dsimp only
  rw [show (bumpTransmitted q0).packets = [] from by simp [h]]

theorem remove_packet_pop {q0 : Queue} {t : ℚ} {rng : Nat → ℚ} {i : Nat}
    {p : Event × ℚ} {rest : List (Event × ℚ)}
    (h : q0.packets = p :: rest) :
    remove_packet q0 t rng i =
      Except.ok ({ bumpTransmitted q0 with
                   packets := rest
                   total_waiting_time :=
                     (bumpTransmitted q0).total_waiting_time + (if t - p.2 < 0 then 0 else t - p.2)
                   total_transmission_time :=
                     (bumpTransmitted q0).total_transmission_time + rng i
                   total_batch_time :=
                     (bumpTransmitted q0).total_batch_time + ((if t - p.2 < 0 then 0 else t - p.2) + rng i) },
                 rng i, i + 1) := by
  obtain ⟨ev, a⟩ := p
  unfold remove_packet
  dsimp only
  rw [show (bumpTransmitted q0).packets = (ev, a) :: rest from by simp [h], gen_random_MU]

theorem add_packet_isOk (q0 : Queue) (e : Event) (t : ℚ) (rng : Nat → ℚ) (i : Nat) :
    ∃ q' r i', add_packet q0 e t rng i = Except.ok (q', r, i') := by
  by_cases h1 : q0.packets.length = q0.size_limit
  · exact ⟨_, _, _, add_packet_drop h1⟩
  · cases h2 : q0.is_busy
    · exact ⟨_, _, _, add_packet_serve h1 h2⟩
    · exact ⟨_, _, _, add_packet_enqueue h1 h2⟩

theorem remove_packet_isOk (q0 : Queue) (t : ℚ) (rng : Nat → ℚ) (i : Nat) :
    ∃ q' r i', remove_packet q0 t rng i = Except.ok (q', r, i') := by
  cases h : q0.packets with
  | nil => exact ⟨_, _, _, remove_packet_idle h⟩
  | cons p rest => exact ⟨_, _, _, remove_packet_pop h⟩

theorem add_packet_conserves {q0 : Queue} {e : Event} {t : ℚ} {rng : Nat → ℚ} {i : Nat}
    {q' : Queue} {r : ℚ} {i' : Nat}
    (h : add_packet q0 e t rng i = Except.ok (q', r, i')) (hc : conserves q0) :
    conserves q' := by
  unfold conserves at hc ⊢
  by_cases h1 : q0.packets.length = q0.size_limit
  · rw [add_packet_drop h1] at h
    obtain ⟨rfl, -⟩ : _ ∧ _ := by simpa using h
    cases hb : q0.is_busy <;> simp [hb] at hc ⊢ <;> omega
  · cases h2 : q0.is_busy
    · rw [add_packet_serve h1 h2] at h
      obtain ⟨rfl, -⟩ : _ ∧ _ := by simpa using h
      simp [h2] at hc ⊢
      omega
    · rw [add_packet_enqueue h1 h2] at h
      obtain ⟨rfl, -⟩ : _ ∧ _ := by simpa using h
      simp [h2] at hc ⊢
      omega

theorem remove_packet_conserves {q0 : Queue} {t : ℚ} {rng : Nat → ℚ} {i : Nat}
    {q' : Queue} {r : ℚ} {i' : Nat}
    (h : remove_packet q0 t rng i = Except.ok (q', r, i')) (hb : q0.is_busy = true)
    (hc : conserves q0) : conserves q' := by
  unfold conserves at hc ⊢
  cases hp : q0.packets with
  | nil =>
      rw [remove_packet_idle hp] at h
      obtain ⟨rfl, -⟩ : _ ∧ _ := by simpa using h
      simp [hb, hp] at hc ⊢
      omega
  | cons p rest =>
      rw [remove_packet_pop hp] at h
      obtain ⟨rfl, -⟩ : _ ∧ _ := by simpa using h
      simp [hb, hp] at hc ⊢
      omega

theorem queue_capacity_reach {rng : Nat → ℚ} {s0 s1 : Queue × Nat}
    (h : QueueReach rng s0 s1) (h0 : s0.1.packets.length ≤ s0.1.size_limit) :
    s1.1.packets.length ≤ s1.1.size_limit := by
  induction h with
  | refl => exact h0
  | @arrive qm im e t q' r i' hreach hadd ih =>
      by_cases h1 : qm.packets.length = qm.size_limit
      · rw [add_packet_drop h1] at hadd
        obtain ⟨rfl, -⟩ : _ ∧ _ := by simpa using hadd
        simpa using ih
      · cases h2 : qm.is_busy
        · rw [add_packet_serve h1 h2] at hadd
          obtain ⟨rfl, -⟩ : _ ∧ _ := by simpa using hadd
          simpa using ih
        · rw [add_packet_enqueue h1 h2] at hadd
          obtain ⟨rfl, -⟩ : _ ∧ _ := by simpa using hadd
          dsimp only at ih
          simp only [bumpOffered_size_limit, bumpOffered_packets, List.length_append,
            List.length_cons, List.length_nil]
          omega
  | @depart qm im t q' r i' hreach hrem ih =>
      cases hp : qm.packets with
      | nil =>
          rw [remove_packet_idle hp] at hrem
          obtain ⟨rfl, -⟩ : _ ∧ _ := by simpa using hrem
          simpa using ih
      | cons p rest =>
          rw [remove_packet_pop hp] at hrem
          obtain ⟨rfl, -⟩ : _ ∧ _ := by simpa using hrem
          dsimp only at ih
          simp only [bumpTransmitted_size_limit, hp, List.length_cons] at ih ⊢
          omega

theorem polledOf_append (l1 l2 : List LogEntry) :
    polledOf (l1 ++ l2) = polledOf l1 ++ polledOf l2 := by
  unfold polledOf
  rw [List.filter_append, List.map_append]

theorem polledOf_scheduled (t : ℚ) (e : Event) : polledOf [(t, "SCHEDULED", e)] = [] := rfl

theorem polledOf_polled (t : ℚ) (e : Event) : polledOf [(t, "POLLED", e)] = [e] := rfl

theorem fanout_pairwise (t : ℚ) (nm : String) :
    ∀ (nqs : List Int) (el : List Event) (lg : List LogEntry),
      el.Pairwise Rle → (fanout t nm nqs el lg).1.Pairwise Rle
  | [], _, _, h => h
  | nq :: rest, el, lg, h => by
      unfold fanout
      split
      · exact fanout_pairwise t nm rest el lg h
      · exact fanout_pairwise t nm rest _ _ (pairwise_insert_event _ _ h)

theorem fanout_lb (t : ℚ) (nm : String) :
    ∀ (nqs : List Int) (el : List Event) (lg : List LogEntry) {c : ℚ},
      (∀ x ∈ el, c ≤ x.event_time) → c ≤ t →
      ∀ x ∈ (fanout t nm nqs el lg).1, c ≤ x.event_time
  | [], _, _, _, hl, _ => hl
  | nq :: rest, el, lg, c, hl, ht => by
      unfold fanout
      split
      · exact fanout_lb t nm rest el lg hl ht
      · exact fanout_lb t nm rest _ _ (lb_insert_event hl ht) ht

theorem fanout_depCount (t : ℚ) (nm : String) :
    ∀ (nqs : List Int) (el : List Event) (lg : List LogEntry) (d : Int),
      depCount d (fanout t nm nqs el lg).1 = depCount d el
  | [], _, _, _ => rfl
  | nq :: rest, el, lg, d => by
      unfold fanout
      split
      · exact fanout_depCount t nm rest el lg d
      · rw [fanout_depCount t nm rest _ _ d, depCount_insert]
        simp [Event.ARRIVAL, Event.DEPARTURE]

theorem fanout_polledOf (t : ℚ) (nm : String) :
    ∀ (nqs : List Int) (el : List Event) (lg : List LogEntry),
      polledOf (fanout t nm nqs el lg).2 = polledOf lg
  | [], _, _ => rfl
  | nq :: rest, el, lg => by
      unfold fanout
      split
      · exact fanout_polledOf t nm rest el lg
      · rw [fanout_polledOf t nm rest _ _, polledOf_append, polledOf_scheduled,
          List.append_nil]

theorem add_packet_busy {q0 : Queue} {e : Event} {t : ℚ} {rng : Nat → ℚ} {i : Nat}
    {q' : Queue} {r : ℚ} {i' : Nat} (hr : 0 ≤ rng i)
    (h : add_packet q0 e t rng i = Except.ok (q', r, i')) :
    busyBit q' = busyBit q0 + (if -1 < r then 1 else 0) ∧
    q'.name = q0.name ∧ q'.next_queues = q0.next_queues ∧ (-1 < r → r = rng i) := by
  unfold busyBit
  by_cases h1 : q0.packets.length = q0.size_limit
  · rw [add_packet_drop h1] at h
    obtain ⟨rfl, hr1, -⟩ : _ ∧ _ ∧ _ := by simpa using h
    subst hr1
    norm_num
  · cases h2 : q0.is_busy
    · rw [add_packet_serve h1 h2] at h
      obtain ⟨rfl, hr1, -⟩ : _ ∧ _ ∧ _ := by simpa using h
      subst hr1
      have : -1 < rng i := lt_of_lt_of_le (by norm_num) hr
      simp [h2, this]
    · rw [add_packet_enqueue h1 h2] at h
      obtain ⟨rfl, hr1, -⟩ : _ ∧ _ ∧ _ := by simpa using h
      subst hr1
      norm_num [h2]

theorem remove_packet_busy {q0 : Queue} {t : ℚ} {rng : Nat → ℚ} {i : Nat}
    {q' : Queue} {r : ℚ} {i' : Nat} (hr : 0 ≤ rng i) (hb : q0.is_busy = true)
    (h : remove_packet q0 t rng i = Except.ok (q', r, i')) :
    busyBit q' = (if -1 < r then 1 else 0) ∧
    q'.name = q0.name ∧ q'.next_queues = q0.next_queues ∧ (-1 < r → r = rng i) := by
  unfold busyBit
  cases hp : q0.packets with
  | nil =>
      rw [remove_packet_idle hp] at h
      obtain ⟨rfl, hr1, -⟩ : _ ∧ _ ∧ _ := by simpa using h
      subst hr1
      norm_num
  | cons p rest =>
      rw [remove_packet_pop hp] at h
      obtain ⟨rfl, hr1, -⟩ : _ ∧ _ ∧ _ := by simpa using h
      subst hr1
      have : -1 < rng i := lt_of_lt_of_le (by norm_num) hr
      simp [hb, this]

theorem gen_arrival_ok {src : Source} {t : ℚ} {n : Nat} {rng : Nat → ℚ} {i : Nat}
    {ev : Event} {i' : Nat} (h : gen_arrival src t n rng i = Except.ok (ev, i')) :
    ev.event_time = t + rng i ∧ ev.type = Event.ARRIVAL ∧
    ev.destination = src.destination ∧ ev.origin = Origin.source n ∧ i' = i + 1 := by
  unfold gen_arrival at h
  cases hg : gen_random src.lamda (rng i) with
  | error msg => rw [hg] at h; exact absurd h (by simp)
  | ok ia =>
      rw [hg] at h
      obtain ⟨rfl, rfl⟩ : _ ∧ _ := by simpa using h
      have hia : ia = rng i := by
        unfold gen_random at hg
        split at hg
        · exact absurd hg (by simp)
        · exact (by simpa using hg : rng i = ia).symm
      subst hia
      exact ⟨rfl, rfl, rfl, rfl, rfl⟩

theorem polled_step {lp : List Event} {event : Event} {c : ℚ}
    (hPPair : lp.Pairwise Rle) (hPLB : ∀ p ∈ lp, p.event_time ≤ c)
    (hce : c ≤ event.event_time) :
    (lp ++ [event]).Pairwise Rle ∧
    (∀ p ∈ lp ++ [event], p.event_time ≤ event.event_time) := by
  constructor
  · rw [List.pairwise_append]
    refine ⟨hPPair, List.pairwise_singleton _ _, ?_⟩
    intro a ha b hb
    rw [List.mem_singleton] at hb
    subst hb
    exact le_trans (hPLB a ha) hce
  · intro p hp
    rcases List.mem_append.mp hp with h | h
    · exact le_trans (hPLB p h) hce
    · rw [List.mem_singleton] at h
      subst h
      exact le_rfl

theorem simStep_inv {rng : Nat → ℚ} {s s' : SimState}
    (hrng : ∀ n, 0 ≤ rng n) (hinv : SimInv s)
    (hstep : simStep rng s = Except.ok (some s')) :
    SimInv s' ∧ s.global_time ≤ s'.global_time := by
  obtain ⟨hPair, hLB, hPPair, hPLB, hCons, hDep⟩ := hinv
  unfold simStep at hstep
  by_cases hbud : s.packets_arrived < s.max_arrivals
  swap
  · rw [if_neg hbud] at hstep
    exact absurd hstep (by simp)
  rw [if_pos hbud] at hstep
  rcases helist : s.event_list with _ | ⟨event, rest⟩
  · rw [helist] at hstep
    exact absurd hstep (by simp)
  rw [helist] at hstep
  dsimp only at hstep
  have hev_mem : event ∈ s.event_list := by
    rw [helist]
    exact List.mem_cons_self _ _
  have hclock : s.global_time ≤ event.event_time := hLB event hev_mem
  have hPair2 := hPair
  rw [helist, List.pairwise_cons] at hPair2
  obtain ⟨hHead, hPairRest⟩ := hPair2
  have hLBrest : ∀ x ∈ rest, event.event_time ≤ x.event_time := fun x hx => hHead x hx
  have hpolledext := polled_step hPPair hPLB hclock
  have hdepCons : ∀ d : Int, depCount d s.event_list
      = depCount d rest + (if event.type = Event.DEPARTURE ∧ event.destination = d then 1 else 0) := by
    intro d
    rw [helist, depCount_cons]
  by_cases htype1 : event.type = Event.ARRIVAL
  · rw [if_pos htype1] at hstep
    by_cases hd0 : 0 ≤ event.destination
    swap
    · rw [if_neg hd0] at hstep
      exact absurd hstep (by simp)
    rw [if_pos hd0] at hstep
    rcases hq : s.queues[event.destination.toNat]? with _ | q
    · rw [hq] at hstep
      exact absurd hstep (by simp)
    rw [hq] at hstep
    dsimp only at hstep
    obtain ⟨hdlt, hdget⟩ := List.getElem?_eq_some.mp hq
    have hqmem : q ∈ s.queues := hdget ▸ List.getElem_mem hdlt
    rcases hadd : add_packet q event event.event_time rng s.ridx with _ | ⟨q', rt, idx1⟩
    · rw [hadd] at hstep
      exact absurd hstep (by simp)
    rw [hadd] at hstep
    dsimp only at hstep
    obtain ⟨hbusyeq, hname, hnext, hrtval⟩ := add_packet_busy (hrng s.ridx) hadd
    have hcons' : conserves q' := add_packet_conserves hadd (hCons q hqmem)
    have hqcons : ∀ qq ∈ s.queues.set event.destination.toNat q', conserves qq := by
      intro qq hqq
      rcases List.mem_or_eq_of_mem_set hqq with h | rfl
      · exact hCons qq h
      · exact hcons'
    rcases horig : event.origin with n | nm
    · -- arrival originating from a Source: schedule its next arrival too
      rw [horig] at hstep
      dsimp only at hstep
      rcases hsrc : s.sources[n]? with _ | src
      · rw [hsrc] at hstep
        exact absurd hstep (by simp)
      rw [hsrc] at hstep
      dsimp only at hstep
      rcases hga : gen_arrival src event.event_time n rng idx1 with _ | ⟨arr, idx2⟩
      · rw [hga] at hstep
        exact absurd hstep (by simp)
      rw [hga] at hstep
      dsimp only at hstep
      obtain ⟨harrt, harrty, harrd, harro, rfl⟩ := gen_arrival_ok hga
      simp only [Except.ok.injEq, Option.some.injEq] at hstep
      subst hstep
      by_cases hrt : -1 < rt
      · simp only [if_pos hrt]
        refine ⟨⟨?_, ?_, ?_, ?_, ?_, ?_⟩, hclock⟩
        · exact pairwise_insert_event _ _ (pairwise_insert_event _ _ hPairRest)
        · refine lb_insert_event (lb_insert_event hLBrest ?_) ?_
          · show event.event_time ≤ event.event_time + rt
            have h0 : (0 : ℚ) ≤ rt := by
              rw [hrtval hrt]
              exact hrng s.ridx
            linarith
          · rw [harrt]
            have := hrng idx1
            linarith
        · show List.Pairwise Rle (polledOf _)
          rw [polledOf_append, polledOf_append, polledOf_append, polledOf_polled,
            polledOf_scheduled, polledOf_scheduled, List.append_nil, List.append_nil]
          exact hpolledext.1
        · show ∀ p ∈ polledOf _, p.event_time ≤ event.event_time
          rw [polledOf_append, polledOf_append, polledOf_append, polledOf_polled,
            polledOf_scheduled, polledOf_scheduled, List.append_nil, List.append_nil]
          exact hpolledext.2
        · exact hqcons
        · intro j
          obtain ⟨jv, hjv⟩ := j
          dsimp only
          have hj : jv < s.queues.length := by simpa using hjv
          have harrcond : ∀ d : Int, ¬(arr.type = Event.DEPARTURE ∧ arr.destination = d) := by
            intro d hc
            rw [harrty] at hc
            exact absurd hc.1 (by simp [Event.ARRIVAL, Event.DEPARTURE])
          by_cases hjd : event.destination.toNat = jv
          · subst hjd
            have hget : (s.queues.set event.destination.toNat q').get ⟨event.destination.toNat, hjv⟩ = q' :=
              List.getElem_set_self hjv
            have hdint : ((event.destination.toNat : Nat) : Int) = event.destination :=
              Int.toNat_of_nonneg hd0
            show depCount _ (insert_event (insert_event rest _) arr) = busyBit _
            rw [hget, hdint, depCount_insert, depCount_insert,
              if_neg (harrcond event.destination), if_pos ⟨rfl, rfl⟩]
            have h1 := hDep ⟨event.destination.toNat, hj⟩
            dsimp only at h1
            have h2 : s.queues.get ⟨event.destination.toNat, hj⟩ = q := hdget
            rw [h2, hdint] at h1
            have h3 := hdepCons event.destination
            rw [htype1] at h3
            rw [if_neg (by simp [Event.ARRIVAL, Event.DEPARTURE])] at h3
            rw [hbusyeq, if_pos hrt]
            omega
          · have hget : (s.queues.set event.destination.toNat q').get ⟨jv, hjv⟩
                = s.queues.get ⟨jv, hj⟩ := List.getElem_set_ne hjd _
            have hdne : event.destination ≠ ((jv : Nat) : Int) := by
              intro hcontra
              apply hjd
              rw [hcontra]
              simp
            show depCount _ (insert_event (insert_event rest _) arr) = busyBit _
            rw [hget, depCount_insert, depCount_insert,
              if_neg (harrcond ((jv : Nat) : Int)), if_neg (by
                intro hc
                exact hdne hc.2)]
            have h1 := hDep ⟨jv, hj⟩
            dsimp only at h1
            have h3 := hdepCons ((jv : Nat) : Int)
            rw [htype1] at h3
            rw [if_neg (by simp [Event.ARRIVAL, Event.DEPARTURE])] at h3
            omega
      · simp only [if_neg hrt]
        refine ⟨⟨?_, ?_, ?_, ?_, ?_, ?_⟩, hclock⟩
        · exact pairwise_insert_event _ _ hPairRest
        · refine lb_insert_event hLBrest ?_
          rw [harrt]
          have := hrng idx1
          linarith
        · show List.Pairwise Rle (polledOf _)
          rw [polledOf_append, polledOf_append, polledOf_polled, polledOf_scheduled,
            List.append_nil]
          exact hpolledext.1
        · show ∀ p ∈ polledOf _, p.event_time ≤ event.event_time
          rw [polledOf_append, polledOf_append, polledOf_polled, polledOf_scheduled,
            List.append_nil]
          exact hpolledext.2
        · exact hqcons
        · intro j
          obtain ⟨jv, hjv⟩ := j
          dsimp only
          have hj : jv < s.queues.length := by simpa using hjv
          have harrcond : ∀ d : Int, ¬(arr.type = Event.DEPARTURE ∧ arr.destination = d) := by
            intro d hc
            rw [harrty] at hc
            exact absurd hc.1 (by simp [Event.ARRIVAL, Event.DEPARTURE])
          by_cases hjd : event.destination.toNat = jv
          · subst hjd
            have hget : (s.queues.set event.destination.toNat q').get ⟨event.destination.toNat, hjv⟩ = q' :=
              List.getElem_set_self hjv
            have hdint : ((event.destination.toNat : Nat) : Int) = event.destination :=
              Int.toNat_of_nonneg hd0
            rw [hget, hdint, depCount_insert, if_neg (harrcond event.destination)]
            have h1 := hDep ⟨event.destination.toNat, hj⟩
            dsimp only at h1
            have h2 : s.queues.get ⟨event.destination.toNat, hj⟩ = q := hdget
            rw [h2, hdint] at h1
            have h3 := hdepCons event.destination
            rw [htype1] at h3
            rw [if_neg (by simp [Event.ARRIVAL, Event.DEPARTURE])] at h3
            rw [hbusyeq, if_neg hrt]
            omega
          · have hget : (s.queues.set event.destination.toNat q').get ⟨jv, hjv⟩
                = s.queues.get ⟨jv, hj⟩ := List.getElem_set_ne hjd _
            rw [hget, depCount_insert, if_neg (harrcond ((jv : Nat) : Int))]
            have h1 := hDep ⟨jv, hj⟩
            dsimp only at h1
            have h3 := hdepCons ((jv : Nat) : Int)
            rw [htype1] at h3
            rw [if_neg (by simp [Event.ARRIVAL, Event.DEPARTURE])] at h3
            omega
    · -- arrival whose origin is a queue name: no next-source arrival is scheduled
      rw [horig] at hstep
      dsimp only at hstep
      simp only [Except.ok.injEq, Option.some.injEq] at hstep
      subst hstep
      by_cases hrt : -1 < rt
      · simp only [if_pos hrt]
        refine ⟨⟨?_, ?_, ?_, ?_, ?_, ?_⟩, hclock⟩
        · exact pairwise_insert_event _ _ hPairRest
        · refine lb_insert_event hLBrest ?_
          show event.event_time ≤ event.event_time + rt
          have h0 : (0 : ℚ) ≤ rt := by
            rw [hrtval hrt]
            exact hrng s.ridx
          linarith
        · show List.Pairwise Rle (polledOf _)
          rw [polledOf_append, polledOf_append, polledOf_polled, polledOf_scheduled,
            List.append_nil]
          exact hpolledext.1
        · show ∀ p ∈ polledOf _, p.event_time ≤ event.event_time
          rw [polledOf_append, polledOf_append, polledOf_polled, polledOf_scheduled,
            List.append_nil]
          exact hpolledext.2
        · exact hqcons
        · intro j
          obtain ⟨jv, hjv⟩ := j
          dsimp only
          have hj : jv < s.queues.length := by simpa using hjv
          by_cases hjd : event.destination.toNat = jv
          · subst hjd
            have hget : (s.queues.set event.destination.toNat q').get ⟨event.destination.toNat, hjv⟩ = q' :=
              List.getElem_set_self hjv
            have hdint : ((event.destination.toNat : Nat) : Int) = event.destination :=
              Int.toNat_of_nonneg hd0
            rw [hget, hdint, depCount_insert, if_pos ⟨rfl, rfl⟩]
            have h1 := hDep ⟨event.destination.toNat, hj⟩
            dsimp only at h1
            have h2 : s.queues.get ⟨event.destination.toNat, hj⟩ = q := hdget
            rw [h2, hdint] at h1
            have h3 := hdepCons event.destination
            rw [htype1] at h3
            rw [if_neg (by simp [Event.ARRIVAL, Event.DEPARTURE])] at h3
            rw [hbusyeq, if_pos hrt]
            omega
          · have hget : (s.queues.set event.destination.toNat q').get ⟨jv, hjv⟩
                = s.queues.get ⟨jv, hj⟩ := List.getElem_set_ne hjd _
            have hdne : event.destination ≠ ((jv : Nat) : Int) := by
              intro hcontra
              apply hjd
              rw [hcontra]
              simp
            rw [hget, depCount_insert, if_neg (by
              intro hc
              exact hdne hc.2)]
            have h1 := hDep ⟨jv, hj⟩
            dsimp only at h1
            have h3 := hdepCons ((jv : Nat) : Int)
            rw [htype1] at h3
            rw [if_neg (by simp [Event.ARRIVAL, Event.DEPARTURE])] at h3
            omega
      · simp only [if_neg hrt]
        refine ⟨⟨?_, ?_, ?_, ?_, ?_, ?_⟩, hclock⟩
        · exact hPairRest
        · exact hLBrest
        · show List.Pairwise Rle (polledOf _)
          rw [polledOf_append, polledOf_polled]
          exact hpolledext.1
        · show ∀ p ∈ polledOf _, p.event_time ≤ event.event_time
          rw [polledOf_append, polledOf_polled]
          exact hpolledext.2
        · exact hqcons
        · intro j
          obtain ⟨jv, hjv⟩ := j
          dsimp only
          have hj : jv < s.queues.length := by simpa using hjv
          by_cases hjd : event.destination.toNat = jv
          · subst hjd
            have hget : (s.queues.set event.destination.toNat q').get ⟨event.destination.toNat, hjv⟩ = q' :=
              List.getElem_set_self hjv
            have hdint : ((event.destination.toNat : Nat) : Int) = event.destination :=
              Int.toNat_of_nonneg hd0
            rw [hget, hdint]
            have h1 := hDep ⟨event.destination.toNat, hj⟩
            dsimp only at h1
            have h2 : s.queues.get ⟨event.destination.toNat, hj⟩ = q := hdget
            rw [h2, hdint] at h1
            have h3 := hdepCons event.destination
            rw [htype1] at h3
            rw [if_neg (by simp [Event.ARRIVAL, Event.DEPARTURE])] at h3
            rw [hbusyeq, if_neg hrt]
            omega
          · have hget : (s.queues.set event.destination.toNat q').get ⟨jv, hjv⟩
                = s.queues.get ⟨jv, hj⟩ := List.getElem_set_ne hjd _
            rw [hget]
            have h1 := hDep ⟨jv, hj⟩
            dsimp only at h1
            have h3 := hdepCons ((jv : Nat) : Int)
            rw [htype1] at h3
            rw [if_neg (by simp [Event.ARRIVAL, Event.DEPARTURE])] at h3
            omega
  · rw [if_neg htype1] at hstep
    by_cases htype2 : event.type = Event.DEPARTURE
    · rw [if_pos htype2] at hstep
      by_cases hd0 : 0 ≤ event.destination
      swap
      · rw [if_neg hd0] at hstep
        exact absurd hstep (by simp)
      rw [if_pos hd0] at hstep
      rcases hq : s.queues[event.destination.toNat]? with _ | q
      · rw [hq] at hstep
        exact absurd hstep (by simp)
      rw [hq] at hstep
      dsimp only at hstep
      obtain ⟨hdlt, hdget⟩ := List.getElem?_eq_some.mp hq
      have hqmem : q ∈ s.queues := hdget ▸ List.getElem_mem hdlt
      have hdint : ((event.destination.toNat : Nat) : Int) = event.destination :=
        Int.toNat_of_nonneg hd0
      have hqbusy : q.is_busy = true := by
        cases hb : q.is_busy
        · exfalso
          have h1 := hDep ⟨event.destination.toNat, hdlt⟩
          dsimp only at h1
          have h2 : s.queues.get ⟨event.destination.toNat, hdlt⟩ = q := hdget
          rw [h2, hdint] at h1
          have h3 := hdepCons event.destination
          rw [htype2, if_pos ⟨rfl, rfl⟩] at h3
          unfold busyBit at h1
          rw [hb] at h1
          simp at h1
          omega
        · rfl
      rcases hrem : remove_packet q event.event_time rng s.ridx with _ | ⟨q', rt, idx1⟩
      · rw [hrem] at hstep
        exact absurd hstep (by simp)
      rw [hrem] at hstep
      dsimp only at hstep
      obtain ⟨hbusyeq, hname, hnext, hrtval⟩ := remove_packet_busy (hrng s.ridx) hqbusy hrem
      have hcons' : conserves q' := remove_packet_conserves hrem hqbusy (hCons q hqmem)
      have hqcons : ∀ qq ∈ s.queues.set event.destination.toNat q', conserves qq := by
        intro qq hqq
        rcases List.mem_or_eq_of_mem_set hqq with h | rfl
        · exact hCons qq h
        · exact hcons'
      simp only [Except.ok.injEq, Option.some.injEq] at hstep
      subst hstep
      by_cases hrt : -1 < rt
      · simp only [if_pos hrt]
        refine ⟨⟨?_, ?_, ?_, ?_, ?_, ?_⟩, hclock⟩
        · exact fanout_pairwise _ _ _ _ _ (pairwise_insert_event _ _ hPairRest)
        · refine fanout_lb _ _ _ _ _ (lb_insert_event hLBrest ?_) le_rfl
          show event.event_time ≤ event.event_time + rt
          have h0 : (0 : ℚ) ≤ rt := by
            rw [hrtval hrt]
            exact hrng s.ridx
          linarith
        · show List.Pairwise Rle (polledOf _)
          rw [fanout_polledOf, polledOf_append, polledOf_append, polledOf_polled,
            polledOf_scheduled, List.append_nil]
          exact hpolledext.1
        · show ∀ p ∈ polledOf _, p.event_time ≤ event.event_time
          rw [fanout_polledOf, polledOf_append, polledOf_append, polledOf_polled,
            polledOf_scheduled, List.append_nil]
          exact hpolledext.2
        · exact hqcons
        · intro j
          obtain ⟨jv, hjv⟩ := j
          dsimp only
          have hj : jv < s.queues.length := by simpa using hjv
          by_cases hjd : event.destination.toNat = jv
          · subst hjd
            have hget : (s.queues.set event.destination.toNat q').get ⟨event.destination.toNat, hjv⟩ = q' :=
              List.getElem_set_self hjv
            rw [hget, hdint, fanout_depCount, depCount_insert, if_pos ⟨rfl, rfl⟩]
            have h1 := hDep ⟨event.destination.toNat, hj⟩
            dsimp only at h1
            have h2 : s.queues.get ⟨event.destination.toNat, hj⟩ = q := hdget
            rw [h2, hdint] at h1
            have h3 := hdepCons event.destination
            rw [htype2, if_pos ⟨rfl, rfl⟩] at h3
            rw [hbusyeq, if_pos hrt]
            unfold busyBit at h1
            rw [hqbusy] at h1
            simp at h1
            omega
          · have hget : (s.queues.set event.destination.toNat q').get ⟨jv, hjv⟩
                = s.queues.get ⟨jv, hj⟩ := List.getElem_set_ne hjd _
            have hdne : event.destination ≠ ((jv : Nat) : Int) := by
              intro hcontra
              apply hjd
              rw [hcontra]
              simp
            rw [hget, fanout_depCount, depCount_insert, if_neg (fun hc => hdne hc.2)]
            have h1 := hDep ⟨jv, hj⟩
            dsimp only at h1
            have h3 := hdepCons ((jv : Nat) : Int)
            rw [htype2, if_neg (fun hc => hdne hc.2)] at h3
            omega
      · simp only [if_neg hrt]
        refine ⟨⟨?_, ?_, ?_, ?_, ?_, ?_⟩, hclock⟩
        · exact fanout_pairwise _ _ _ _ _ hPairRest
        · exact fanout_lb _ _ _ _ _ hLBrest le_rfl
        · show List.Pairwise Rle (polledOf _)
          rw [fanout_polledOf, polledOf_append, polledOf_polled]
          exact hpolledext.1
        · show ∀ p ∈ polledOf _, p.event_time ≤ event.event_time
          rw [fanout_polledOf, polledOf_append, polledOf_polled]
          exact hpolledext.2
        · exact hqcons
        · intro j
          obtain ⟨jv, hjv⟩ := j
          dsimp only
          have hj : jv < s.queues.length := by simpa using hjv
          by_cases hjd : event.destination.toNat = jv
          · subst hjd
            have hget : (s.queues.set event.destination.toNat q').get ⟨event.destination.toNat, hjv⟩ = q' :=
              List.getElem_set_self hjv
            rw [hget, hdint, fanout_depCount]
            have h1 := hDep ⟨event.destination.toNat, hj⟩
            dsimp only at h1
            have h2 : s.queues.get ⟨event.destination.toNat, hj⟩ = q := hdget
            rw [h2, hdint] at h1
            have h3 := hdepCons event.destination
            rw [htype2, if_pos ⟨rfl, rfl⟩] at h3
            rw [hbusyeq, if_neg hrt]
            unfold busyBit at h1
            rw [hqbusy] at h1
            simp at h1
            omega
          · have hget : (s.queues.set event.destination.toNat q').get ⟨jv, hjv⟩
                = s.queues.get ⟨jv, hj⟩ := List.getElem_set_ne hjd _
            have hdne : event.destination ≠ ((jv : Nat) : Int) := by
              intro hcontra
              apply hjd
              rw [hcontra]
              simp
            rw [hget, fanout_depCount]
            have h1 := hDep ⟨jv, hj⟩
            dsimp only at h1
            have h3 := hdepCons ((jv : Nat) : Int)
            rw [htype2, if_neg (fun hc => hdne hc.2)] at h3
            omega
    · rw [if_neg htype2] at hstep
      simp only [Except.ok.injEq, Option.some.injEq] at hstep
      subst hstep
      refine ⟨⟨?_, ?_, ?_, ?_, ?_, ?_⟩, hclock⟩
      · exact hPairRest
      · exact hLBrest
      · show List.Pairwise Rle (polledOf _)
        rw [polledOf_append, polledOf_polled]
        exact hpolledext.1
      · show ∀ p ∈ polledOf _, p.event_time ≤ event.event_time
        rw [polledOf_append, polledOf_polled]
        exact hpolledext.2
      · exact hCons
      · intro j
        obtain ⟨jv, hjv⟩ := j
        dsimp only
        have h1 := hDep ⟨jv, hjv⟩
        dsimp only at h1
        have h3 := hdepCons ((jv : Nat) : Int)
        rw [if_neg (fun hc => htype2 hc.1)] at h3
        omega

theorem runSim_inv {rng : Nat → ℚ} (hrng : ∀ n, 0 ≤ rng n) :
    ∀ (fuel : Nat) {s s' : SimState}, SimInv s → runSim rng fuel s = Except.ok s' →
      SimInv s' ∧ s.global_time ≤ s'.global_time
  | 0, s, s', hinv, hrun => by
      obtain rfl : s = s' := by simpa [runSim] using hrun
      exact ⟨hinv, le_rfl⟩
  | fuel + 1, s, s', hinv, hrun => by
      unfold runSim at hrun
      rcases hstep : simStep rng s with _ | os
      · rw [hstep] at hrun
        exact absurd hrun (by simp)
      rw [hstep] at hrun
      rcases os with _ | s1
      · dsimp only at hrun
        obtain rfl : s = s' := by simpa using hrun
        exact ⟨hinv, le_rfl⟩
      · dsimp only at hrun
        obtain ⟨hinv1, hle1⟩ := simStep_inv hrng hinv hstep
        obtain ⟨hinv2, hle2⟩ := runSim_inv hrng fuel hinv1 hrun
        exact ⟨hinv2, le_trans hle1 hle2⟩

theorem genInitAux_inv {rng : Nat → ℚ} (hrng : ∀ n, 0 ≤ rng n) :
    ∀ (srcs : List Source) (k : Nat) {s s' : SimState},
      genInitAux rng srcs k s = Except.ok s' →
      List.Pairwise Rle s.event_list →
      (∀ e ∈ s.event_list, s.global_time ≤ e.event_time) →
      s'.queues = s.queues ∧ s'.processed_events = s.processed_events ∧
      s'.global_time = s.global_time ∧
      List.Pairwise Rle s'.event_list ∧
      (∀ e ∈ s'.event_list, s'.global_time ≤ e.event_time) ∧
      (∀ d : Int, depCount d s'.event_list = depCount d s.event_list)
  | [], k, s, s', h, hp, hlb => by
      obtain rfl : s = s' := by simpa [genInitAux] using h
      exact ⟨rfl, rfl, rfl, hp, hlb, fun d => rfl⟩
  | src :: rest, k, s, s', h, hp, hlb => by
      unfold genInitAux at h
      rcases hga : gen_arrival src s.global_time k rng s.ridx with _ | ⟨arr, idx1⟩
      · rw [hga] at h
        exact absurd h (by simp)
      rw [hga] at h
      dsimp only at h
      obtain ⟨harrt, harrty, -, -, -⟩ := gen_arrival_ok hga
      have hp1 : List.Pairwise Rle (insert_event s.event_list arr) :=
        pairwise_insert_event _ _ hp
      have hlb1 : ∀ e ∈ insert_event s.event_list arr, s.global_time ≤ e.event_time := by
        refine lb_insert_event hlb ?_
        rw [harrt]
        have := hrng s.ridx
        linarith
      obtain ⟨hq, hpe, hgt, hp2, hlb2, hdc⟩ := genInitAux_inv hrng rest (k + 1) h hp1 hlb1
      refine ⟨hq, hpe, hgt, hp2, hlb2, ?_⟩
      intro d
      rw [hdc d, depCount_insert, if_neg (fun hc => by
        rw [harrty] at hc
        exact absurd hc.1 (by simp [Event.ARRIVAL, Event.DEPARTURE]))]
      omega

theorem initSim_inv {rng : Nat → ℚ} (hrng : ∀ n, 0 ≤ rng n) {maxA : Nat} {s0 : SimState}
    (h : initSim rng maxA = Except.ok s0) : SimInv s0 ∧ s0.global_time = 0 := by
  unfold initSim at h
  obtain ⟨hq, hpe, hgt, hp2, hlb2, hdc⟩ :=
    genInitAux_inv hrng initSources 0 h List.Pairwise.nil (by simp)
  refine ⟨⟨hp2, hlb2, ?_, ?_, ?_, ?_⟩, hgt⟩
  · show List.Pairwise Rle (polledOf s0.processed_events)
    rw [hpe]
    exact List.Pairwise.nil
  · show ∀ e ∈ polledOf s0.processed_events, e.event_time ≤ s0.global_time
    rw [hpe]
    simp [polledOf]
  · rw [hq]
    dsimp only
    decide
  · intro i
    obtain ⟨iv, hiv⟩ := i
    have h0 : ∀ qq ∈ s0.queues, busyBit qq = 0 := by
      rw [hq]
      dsimp only
      decide
    have hb : busyBit (s0.queues.get ⟨iv, hiv⟩) = 0 := h0 _ (List.get_mem _ _ hiv)
    rw [hb, hdc]
    rfl

theorem insert_event_eq (e : Event) :
    ∀ l : List Event, insert_event l e =
      l.takeWhile (fun x => decide (x.event_time < e.event_time)) ++
        e :: l.dropWhile (fun x => decide (x.event_time < e.event_time))
  | [] => rfl
  | x :: xs => by
      unfold insert_event
      split
      case isTrue hle =>
        have hx : (decide (x.event_time < e.event_time)) = false := by
          simp [not_lt.mpr hle]
        rw [List.takeWhile_cons, List.dropWhile_cons, hx]
        simp
      case isFalse hgt =>
        have hx : (decide (x.event_time < e.event_time)) = true := by
          simp [lt_of_not_le hgt]
        rw [List.takeWhile_cons, List.dropWhile_cons, hx]
        simp [insert_event_eq e xs]

theorem insert_event_before {t d : List Event} {A B : Event}
    (h : A.event_time = B.event_time)
    (ht : ∀ x ∈ t, x.event_time < A.event_time) :
    insert_event (t ++ A :: d) B = t ++ B :: A :: d := by
  induction t with
  | nil =>
      show insert_event (A :: d) B = B :: A :: d
      unfold insert_event
      rw [if_pos (le_of_eq h.symm)]
  | cons x xs ih =>
      have hx : ¬ B.event_time ≤ x.event_time := by
        have := ht x (List.mem_cons_self _ _)
        rw [h] at this
        exact not_le.mpr this
      show insert_event (x :: (xs ++ A :: d)) B = x :: (xs ++ B :: A :: d)
      unfold insert_event
      rw [if_neg hx, ih (fun y hy => ht y (List.mem_cons_of_mem _ hy))]

theorem bumpOffered_noBatch {q : Queue} (h : (q.packets_offered + 1) % 5000 ≠ 0) :
    bumpOffered q = { q with packets_offered := q.packets_offered + 1 } := by
  unfold bumpOffered
  dsimp only
  rw [if_neg h]

theorem bumpOffered_batch {q : Queue} (h : (q.packets_offered + 1) % 5000 = 0) :
    bumpOffered q = calc_loss_ratios { q with packets_offered := q.packets_offered + 1 } := by
  unfold bumpOffered
  dsimp only
  rw [if_pos h]

/-- Claim C1 (counterexample): the specified FIFO tie-break fails on the
code.  Two distinct events with equal time are inserted (evA first, evB
second); the next poll returns evB, the one inserted second, so pop order
among equal-timestamp events is not insertion order. -/
theorem C1_fifo_counterexample :
    (poll (insert_event (insert_event [] evA) evB)).1 = some evB ∧ evB ≠ evA := by
  constructor
  · rfl
  · decide

/-- Claim C1 (amended): insert_event places a new event immediately before
the first existing event with an equal or later clock, so for any two
events A and B with equal time where A was inserted before B, B ends up
immediately in front of A and is therefore popped first: the tie-break is
LIFO (reverse insertion order), not FIFO. -/
theorem C1_tie_break_lifo (l : List Event) (A B : Event)
    (h : A.event_time = B.event_time) :
    insert_event (insert_event l A) B =
      l.takeWhile (fun x => decide (x.event_time < A.event_time)) ++
        B :: A :: l.dropWhile (fun x => decide (x.event_time < A.event_time)) := by
  rw [insert_event_eq A l]
  refine insert_event_before h ?_
  intro x hx
  have := List.mem_takeWhile_imp hx
  simpa using this

theorem C1_tie_break_lifo_witness :
    evA.event_time = evB.event_time ∧
    insert_event (insert_event [] evA) evB =
      ([] : List Event).takeWhile (fun x => decide (x.event_time < evA.event_time)) ++
        evB :: evA :: ([] : List Event).dropWhile (fun x => decide (x.event_time < evA.event_time)) :=
  ⟨rfl, C1_tie_break_lifo [] evA evB rfl⟩

/-- Claim C5: the in-service packet does not count against waiting
capacity.  On a capacity-1 queue with every service draw equal to 1.0,
three arrivals at t = 0, 0.00001, 0.00002 produce: ServiceStarted with
duration 1 (returned value 1, nothing waiting), Enqueued (returned value
-1, no drop, one packet waiting), Dropped (returned value -1, drop counter
1, still one packet waiting). -/
theorem C5_in_service_excluded :
    c5_run = Except.ok ([1, -1, -1], [0, 0, 1], [0, 1, 1]) := by
  rfl

/-- Claim C8: gen_random raises its parameter error exactly when the rate
is non-positive; for a positive rate it returns the external draw
unchanged (hence a nonnegative value whenever the collaborator's draw is
nonnegative), and Source.gen_arrival propagates the error instead of
producing an event, so no caller proceeds with a duration from an invalid
rate. -/
theorem C8_rate_validation (lamda x : ℚ) :
    ((gen_random lamda x = Except.error "Rate parameter must be positive.") ↔ lamda ≤ 0) ∧
    (0 < lamda → gen_random lamda x = Except.ok x) ∧
    (0 < lamda → 0 ≤ x → gen_random lamda x = Except.ok x ∧ 0 ≤ x) ∧
    (∀ (src : Source) (t : ℚ) (n : Nat) (rng : Nat → ℚ) (i : Nat),
      src.lamda ≤ 0 →
      gen_arrival src t n rng i = Except.error "Rate parameter must be positive.") := by
  refine ⟨⟨?_, ?_⟩, ?_, ?_, ?_⟩
  · intro h
    by_contra hpos
    unfold gen_random at h
    rw [if_neg hpos] at h
    exact absurd h (by simp)
  · intro hle
    unfold gen_random
    rw [if_pos hle]
  · intro hpos
    unfold gen_random
    rw [if_neg (not_le.mpr hpos)]
  · intro hpos hx
    refine ⟨?_, hx⟩
    unfold gen_random
    rw [if_neg (not_le.mpr hpos)]
  · intro src t n rng i hle
    unfold gen_arrival
    rw [show gen_random src.lamda (rng i) = Except.error "Rate parameter must be positive."
      from by unfold gen_random; rw [if_pos hle]]

theorem C8_rate_validation_witness :
    gen_random 1 2 = Except.ok 2 ∧
    gen_random (-1) 2 = Except.error "Rate parameter must be positive." ∧
    gen_arrival (mkSource (-1) 0) 0 0 oneRng 0
      = Except.error "Rate parameter must be positive." := by
  refine ⟨(C8_rate_validation 1 2).2.1 (by norm_num),
    (C8_rate_validation (-1) 2).1.mpr (by norm_num),
    (C8_rate_validation 1 2).2.2.2 (mkSource (-1) 0) 0 0 oneRng 0 ?_⟩
  show (12500000 : ℚ) * (-1) ≤ 0
  norm_num

/-- Claim C9 (counterexample): double construction is not a
construction-time error.  Starting from the initial class state, a first
direct constructor call succeeds, and a second direct constructor call
made while the first instance already exists also succeeds, returning a
distinct instance; no exception is raised, because __init__ only checks
the class attribute _instance, which direct construction never sets. -/
theorem C9_singleton_counterexample :
    elm_construct { inst := none, next_id := 0 } =
      Except.ok (0, { inst := none, next_id := 1 }) ∧
    elm_construct { inst := none, next_id := 1 } =
      Except.ok (1, { inst := none, next_id := 2 }) ∧
    (0 : Nat) ≠ 1 := by
  refine ⟨rfl, rfl, ?_⟩
  decide

/-- Claim C9 (amended): the constructor raises exactly when the class
attribute _instance is set, which only get_instance ever does; direct
construction before any get_instance call succeeds and does not register
the instance.  get_instance stores the instance it creates and every later
get_instance call returns that same single instance. -/
theorem C9_singleton_amended (s : ELMState) :
    (s.inst ≠ none →
      elm_construct s =
        Except.error "Use EventListManager.get_instance() to get the singleton instance.") ∧
    (s.inst = none →
      elm_construct s = Except.ok (s.next_id, { s with next_id := s.next_id + 1 })) ∧
    (∀ (i : Nat) (s' : ELMState), elm_get_instance s = Except.ok (i, s') →
      s'.inst = some i ∧ elm_get_instance s' = Except.ok (i, s')) := by
  refine ⟨?_, ?_, ?_⟩
  · intro h
    unfold elm_construct
    cases hs : s.inst with
    | none => exact absurd hs h
    | some j => rfl
  · intro h
    unfold elm_construct
    rw [h]
  · intro i s' h
    unfold elm_get_instance at h
    cases hs : s.inst with
    | some j =>
        rw [hs] at h
        obtain ⟨rfl, rfl⟩ : _ ∧ _ := by simpa using h
        constructor
        · exact hs
        · unfold elm_get_instance
          rw [hs]
    | none =>
        rw [hs] at h
        unfold elm_construct at h
        rw [hs] at h
        dsimp only at h
        obtain ⟨rfl, rfl⟩ : _ ∧ _ := by simpa using h
        constructor
        · rfl
        · rfl

theorem C9_singleton_amended_witness :
    elm_construct { inst := some 5, next_id := 6 } =
      Except.error "Use EventListManager.get_instance() to get the singleton instance." ∧
    ({ inst := some 0, next_id := 1 } : ELMState).inst = some 0 ∧
    elm_get_instance { inst := some 0, next_id := 1 } =
      Except.ok (0, { inst := some 0, next_id := 1 }) := by
  refine ⟨(C9_singleton_amended { inst := some 5, next_id := 6 }).1 (by simp), ?_, ?_⟩
  · exact ((C9_singleton_amended { inst := none, next_id := 0 }).2.2 0
      { inst := some 0, next_id := 1 } rfl).1
  · exact ((C9_singleton_amended { inst := none, next_id := 0 }).2.2 0
      { inst := some 0, next_id := 1 } rfl).2

theorem addN_succ (q : Queue) (i : Nat) (rng : Nat → ℚ) (n : Nat) :
    addN q i rng (n + 1) =
      match addN q i rng n with
      | Except.error msg => Except.error msg
      | Except.ok (q', i') =>
          match add_packet q' { event_time := 0, type := Event.ARRIVAL
                                destination := 0, origin := Origin.source 0 } 0 rng i' with
          | Except.error msg => Except.error msg
          | Except.ok (q'', _, i'') => Except.ok (q'', i'') := rfl

theorem c6_state : ∀ k : Nat, k ≤ 4999 →
    addN c6_q0 0 oneRng k =
      Except.ok ({ c6_q0 with
                   packets_offered := k
                   packets_dropped := k
                   packets_dropped_per_batch := k }, 0)
  | 0, _ => rfl
  | k + 1, hk => by
      have hk' : k ≤ 4999 := Nat.le_of_succ_le hk
      simp only [addN]
      rw [c6_state k hk']
      dsimp only
      rw [add_packet_drop rfl]
      rw [bumpOffered_noBatch (by dsimp only; omega)]

/-- Claim C6 (counterexample): the batch value recorded at the 5000th
offered packet is not the drop count among those 5000 packets over 5000.
On a capacity-0 queue every one of the first 5000 offered packets is
dropped (packets_dropped = 5000), yet the single recorded loss-ratio batch
value is 4999/5000, not 5000/5000: the batch closes before the 5000th
packet's own drop is counted, so that drop lands in the next batch (the
per-batch counter ends at 1, not 0). -/
theorem C6_batch_counterexample :
    addN c6_q0 0 oneRng 5000 = Except.ok (c6_final, 0) ∧
    c6_final.packets_offered = 5000 ∧
    c6_final.packets_dropped = 5000 ∧
    c6_final.loss_ratios = [(4999 : ℚ) / 5000] ∧
    ((4999 : ℚ) / 5000) ≠ (5000 : ℚ) / 5000 := by
  refine ⟨?_, rfl, rfl, rfl, by norm_num⟩
  show addN c6_q0 0 oneRng (4999 + 1) = _
  rw [addN_succ, c6_state 4999 (by norm_num)]
  rfl

/-- Claim C6 (amended): on the call that makes packets_offered a multiple
of 5000, exactly one loss-ratio value is appended and it equals the batch
drop counter as it stood before that call, divided by 5000 — that is, the
drops among the earlier packets of the window, excluding a drop of the
closing packet itself; the counter is reset at closure and then holds 1
exactly when the closing packet is itself dropped (waiting deque at its
size limit), so that drop counts toward the next batch. -/
theorem C6_batch_closure_amended (q : Queue) (e : Event) (t : ℚ) (rng : Nat → ℚ)
    (i : Nat) (q' : Queue) (r : ℚ) (i' : Nat)
    (h5 : (q.packets_offered + 1) % 5000 = 0)
    (h : add_packet q e t rng i = Except.ok (q', r, i')) :
    q'.loss_ratios = q.loss_ratios ++ [(q.packets_dropped_per_batch : ℚ) / 5000] ∧
    q'.packets_dropped_per_batch = (if q.packets.length = q.size_limit then 1 else 0) := by
  have hb : bumpOffered q
      = calc_loss_ratios { q with packets_offered := q.packets_offered + 1 } :=
    bumpOffered_batch h5
  have hc : calc_loss_ratios { q with packets_offered := q.packets_offered + 1 }
      = { q with
          packets_offered := q.packets_offered + 1
          loss_ratios := q.loss_ratios ++ [(q.packets_dropped_per_batch : ℚ) / 5000]
          packets_dropped_per_batch := 0 } := by
    unfold calc_loss_ratios
    dsimp only
    rw [if_pos (by omega)]
  by_cases h1 : q.packets.length = q.size_limit
  · rw [add_packet_drop h1] at h
    obtain ⟨rfl, -⟩ : _ ∧ _ := by simpa using h
    rw [if_pos h1]
    constructor
    · show (bumpOffered q).loss_ratios = _
      rw [hb, hc]
    · show (bumpOffered q).packets_dropped_per_batch + 1 = 1
      rw [hb, hc]
  · cases h2 : q.is_busy
    · rw [add_packet_serve h1 h2] at h
      obtain ⟨rfl, -⟩ : _ ∧ _ := by simpa using h
      rw [if_neg h1]
      constructor
      · show (bumpOffered q).loss_ratios = _
        rw [hb, hc]
      · show (bumpOffered q).packets_dropped_per_batch = 0
        rw [hb, hc]
    · rw [add_packet_enqueue h1 h2] at h
      obtain ⟨rfl, -⟩ : _ ∧ _ := by simpa using h
      rw [if_neg h1]
      constructor
      · show (bumpOffered q).loss_ratios = _
        rw [hb, hc]
      · show (bumpOffered q).packets_dropped_per_batch = 0
        rw [hb, hc]

theorem C6_batch_closure_amended_witness :
    ((c6w_q.packets_offered + 1) % 5000 = 0) ∧
    c6w_q2.loss_ratios = c6w_q.loss_ratios ++ [(c6w_q.packets_dropped_per_batch : ℚ) / 5000] ∧
    c6w_q2.packets_dropped_per_batch
      = (if c6w_q.packets.length = c6w_q.size_limit then 1 else 0) := by
  refine ⟨by norm_num [c6w_q, c6_q0, mkQueue], ?_, ?_⟩
  · exact (C6_batch_closure_amended c6w_q evA 0 oneRng 0 c6w_q2 (-1) 0
      (by norm_num [c6w_q, c6_q0, mkQueue]) rfl).1
  · exact (C6_batch_closure_amended c6w_q evA 0 oneRng 0 c6w_q2 (-1) 0
      (by norm_num [c6w_q, c6_q0, mkQueue]) rfl).2

theorem add_packet_ridx {q0 : Queue} {e : Event} {t : ℚ} {rng : Nat → ℚ} {i : Nat}
    {q' : Queue} {r : ℚ} {i' : Nat}
    (h : add_packet q0 e t rng i = Except.ok (q', r, i')) : i ≤ i' := by
  by_cases h1 : q0.packets.length = q0.size_limit
  · rw [add_packet_drop h1] at h
    obtain ⟨-, -, h3⟩ : _ ∧ _ ∧ _ := by simpa using h
    omega
  · cases h2 : q0.is_busy
    · rw [add_packet_serve h1 h2] at h
      obtain ⟨-, -, h3⟩ : _ ∧ _ ∧ _ := by simpa using h
      omega
    · rw [add_packet_enqueue h1 h2] at h
      obtain ⟨-, -, h3⟩ : _ ∧ _ ∧ _ := by simpa using h
      omega

theorem remove_packet_ridx {q0 : Queue} {t : ℚ} {rng : Nat → ℚ} {i : Nat}
    {q' : Queue} {r : ℚ} {i' : Nat}
    (h : remove_packet q0 t rng i = Except.ok (q', r, i')) : i ≤ i' := by
  cases hp : q0.packets with
  | nil =>
      rw [remove_packet_idle hp] at h
      obtain ⟨-, -, h3⟩ : _ ∧ _ ∧ _ := by simpa using h
      omega
  | cons p rest =>
      rw [remove_packet_pop hp] at h
      obtain ⟨-, -, h3⟩ : _ ∧ _ ∧ _ := by simpa using h
      omega

theorem simStep_ridx {rng : Nat → ℚ} {s s' : SimState}
    (hstep : simStep rng s = Except.ok (some s')) : s.ridx ≤ s'.ridx := by
  unfold simStep at hstep
  by_cases hbud : s.packets_arrived < s.max_arrivals
  swap
  · rw [if_neg hbud] at hstep
    exact absurd hstep (by simp)
  rw [if_pos hbud] at hstep
  rcases helist : s.event_list with _ | ⟨event, rest⟩
  · rw [helist] at hstep
    exact absurd hstep (by simp)
  rw [helist] at hstep
  dsimp only at hstep
  by_cases htype1 : event.type = Event.ARRIVAL
  · rw [if_pos htype1] at hstep
    by_cases hd0 : 0 ≤ event.destination
    swap
    · rw [if_neg hd0] at hstep
      exact absurd hstep (by simp)
    rw [if_pos hd0] at hstep
    rcases hq : s.queues[event.destination.toNat]? with _ | q
    · rw [hq] at hstep
      exact absurd hstep (by simp)
    rw [hq] at hstep
    dsimp only at hstep
    rcases hadd : add_packet q event event.event_time rng s.ridx with _ | ⟨q', rt, idx1⟩
    · rw [hadd] at hstep
      exact absurd hstep (by simp)
    rw [hadd] at hstep
    dsimp only at hstep
    have h1 : s.ridx ≤ idx1 := add_packet_ridx hadd
    rcases horig : event.origin with n | nm
    · rw [horig] at hstep
      dsimp only at hstep
      rcases hsrc : s.sources[n]? with _ | src
      · rw [hsrc] at hstep
        exact absurd hstep (by simp)
      rw [hsrc] at hstep
      dsimp only at hstep
      rcases hga : gen_arrival src event.event_time n rng idx1 with _ | ⟨arr, idx2⟩
      · rw [hga] at hstep
        exact absurd hstep (by simp)
      rw [hga] at hstep
      dsimp only at hstep
      obtain ⟨-, -, -, -, h2⟩ := gen_arrival_ok hga
      simp only [Except.ok.injEq, Option.some.injEq] at hstep
      subst hstep
      show s.ridx ≤ idx2
      omega
    · rw [horig] at hstep
      dsimp only at hstep
      simp only [Except.ok.injEq, Option.some.injEq] at hstep
      subst hstep
      exact h1
  · rw [if_neg htype1] at hstep
    by_cases htype2 : event.type = Event.DEPARTURE
    · rw [if_pos htype2] at hstep
      by_cases hd0 : 0 ≤ event.destination
      swap
      · rw [if_neg hd0] at hstep
        exact absurd hstep (by simp)
      rw [if_pos hd0] at hstep
      rcases hq : s.queues[event.destination.toNat]? with _ | q
      · rw [hq] at hstep
        exact absurd hstep (by simp)
      rw [hq] at hstep
      dsimp only at hstep
      rcases hrem : remove_packet q event.event_time rng s.ridx with _ | ⟨q', rt, idx1⟩
      · rw [hrem] at hstep
        exact absurd hstep (by simp)
      rw [hrem] at hstep
      dsimp only at hstep
      simp only [Except.ok.injEq, Option.some.injEq] at hstep
      subst hstep
      exact remove_packet_ridx hrem
    · rw [if_neg htype2] at hstep
      simp only [Except.ok.injEq, Option.some.injEq] at hstep
      subst hstep
      exact le_refl _

theorem runSim_ridx {rng : Nat → ℚ} :
    ∀ (fuel : Nat) {s s' : SimState}, runSim rng fuel s = Except.ok s' → s.ridx ≤ s'.ridx
  | 0, s, s', hrun => by
      obtain rfl : s = s' := by simpa [runSim] using hrun
      exact le_refl _
  | fuel + 1, s, s', hrun => by
      unfold runSim at hrun
      rcases hstep : simStep rng s with _ | os
      · rw [hstep] at hrun
        exact absurd hrun (by simp)
      rw [hstep] at hrun
      rcases os with _ | s1
      · dsimp only at hrun
        obtain rfl : s = s' := by simpa using hrun
        exact le_refl _
      · dsimp only at hrun
        exact le_trans (simStep_ridx hstep) (runSim_ridx fuel hrun)

/-- Claim C2: packet conservation.  Each add_packet call preserves the
equation offered = dropped + transmitted + waiting + (1 if busy else 0);
each remove_packet call made on a busy queue (the only way the simulator
ever issues one, since a Departure event is pending exactly when the
server is busy) preserves it; and along every simulation run driven by
NetworkSimulation.run every queue satisfies the equation at every reached
state, in particular at the end. -/
theorem C2_packet_conservation (rng : Nat → ℚ) (hrng : ∀ n, 0 ≤ rng n) :
    (∀ (q : Queue) (e : Event) (t : ℚ) (i : Nat) (q' : Queue) (r : ℚ) (i' : Nat),
      conserves q → add_packet q e t rng i = Except.ok (q', r, i') → conserves q') ∧
    (∀ (q : Queue) (t : ℚ) (i : Nat) (q' : Queue) (r : ℚ) (i' : Nat),
      conserves q → q.is_busy = true →
      remove_packet q t rng i = Except.ok (q', r, i') → conserves q') ∧
    (∀ (maxA fuel : Nat) (s0 s : SimState),
      initSim rng maxA = Except.ok s0 → runSim rng fuel s0 = Except.ok s →
      ∀ q ∈ s.queues, conserves q) := by
  refine ⟨?_, ?_, ?_⟩
  · intro q e t i q' r i' hc h
    exact add_packet_conserves h hc
  · intro q t i q' r i' hc hb h
    exact remove_packet_conserves h hb hc
  · intro maxA fuel s0 s hinit hrun
    obtain ⟨hinv0, -⟩ := initSim_inv hrng hinit
    obtain ⟨hinv, -⟩ := runSim_inv hrng fuel hinv0 hrun
    exact hinv.2.2.2.2.1

theorem initSim_oneRng_eval : initSim oneRng 10000 = Except.ok c4s0 := by
  unfold initSim initSources
  norm_num [genInitAux, gen_arrival, gen_random, mkSource, insert_event, oneRng, c4s0,
    initSources, ev0, ev1, ev2, ev3]

theorem C2_packet_conservation_witness :
    conserves (c4s0.queues.getD 0 (mkQueue [] "Router Q0" 0)) ∧
    conserves (c4s0.queues.getD 2 (mkQueue [] "Router Q0" 0)) := by
  have h := (C2_packet_conservation oneRng (fun _ => zero_le_one)).2.2 10000 0 c4s0 c4s0
    initSim_oneRng_eval rfl
  exact ⟨h _ (by decide), h _ (by decide)⟩

/-- Claim C3: capacity bound.  In every queue state reachable from a
freshly constructed queue by any interleaving of add_packet and
remove_packet calls, the waiting deque never exceeds size_limit; and an
arrival offered while the deque holds exactly size_limit packets is
dropped with return value -1, no random draw, and no state change besides
the offered and dropped counters and the batch bookkeeping (waiting deque,
busy flag, transmitted counter and all time accumulators are untouched). -/
theorem C3_capacity_bound (rng : Nat → ℚ) (nqs : List Int) (nm : String) (cap : Nat)
    (j : Nat) (q : Queue) (i : Nat)
    (h : QueueReach rng (mkQueue nqs nm cap, j) (q, i)) :
    q.packets.length ≤ q.size_limit ∧
    (∀ (e : Event) (t : ℚ), q.packets.length = q.size_limit →
      ∃ q'', add_packet q e t rng i = Except.ok (q'', -1, i) ∧
        q''.packets = q.packets ∧
        q''.is_busy = q.is_busy ∧
        q''.packets_transmitted = q.packets_transmitted ∧
        q''.total_waiting_time = q.total_waiting_time ∧
        q''.total_transmission_time = q.total_transmission_time ∧
        q''.total_batch_time = q.total_batch_time ∧
        q''.batch_means = q.batch_means ∧
        q''.packets_offered = q.packets_offered + 1 ∧
        q''.packets_dropped = q.packets_dropped + 1) := by
  constructor
  · exact queue_capacity_reach h (by simp [mkQueue])
  · intro e t hfull
    refine ⟨_, add_packet_drop hfull, ?_, ?_, ?_, ?_, ?_, ?_, ?_, ?_, ?_⟩ <;> simp

theorem C3_capacity_bound_witness :
    (mkQueue [] "Router Q0" 0).packets.length ≤ (mkQueue [] "Router Q0" 0).size_limit ∧
    (∃ q'', add_packet (mkQueue [] "Router Q0" 0) evA 0 oneRng 0 = Except.ok (q'', -1, 0) ∧
      q''.packets = (mkQueue [] "Router Q0" 0).packets ∧
      q''.is_busy = (mkQueue [] "Router Q0" 0).is_busy ∧
      q''.packets_transmitted = (mkQueue [] "Router Q0" 0).packets_transmitted ∧
      q''.total_waiting_time = (mkQueue [] "Router Q0" 0).total_waiting_time ∧
      q''.total_transmission_time = (mkQueue [] "Router Q0" 0).total_transmission_time ∧
      q''.total_batch_time = (mkQueue [] "Router Q0" 0).total_batch_time ∧
      q''.batch_means = (mkQueue [] "Router Q0" 0).batch_means ∧
      q''.packets_offered = (mkQueue [] "Router Q0" 0).packets_offered + 1 ∧
      q''.packets_dropped = (mkQueue [] "Router Q0" 0).packets_dropped + 1) := by
  have h := C3_capacity_bound oneRng [] "Router Q0" 0 0 (mkQueue [] "Router Q0" 0) 0
    (QueueReach.refl _)
  exact ⟨h.1, h.2 evA 0 rfl⟩

/-- Claim C4: monotonic clock.  Along every simulation run (any stream of
nonnegative draws, any arrival budget, any number of loop iterations): the
dequeued events, in dequeue order, have non-decreasing times; every
dequeued event's time is at most the final clock while every still-pending
event's time is at least it; the clock never falls below its initial
value; each single loop iteration (in any state satisfying the run
invariant) never decreases the clock when setting it to the dequeued
event's time; and the event about to be dequeued is never earlier than
the clock at the moment of dequeue. -/
theorem C4_monotonic_clock (rng : Nat → ℚ) (hrng : ∀ n, 0 ≤ rng n)
    (maxA fuel : Nat) (s0 s : SimState)
    (hinit : initSim rng maxA = Except.ok s0) (hrun : runSim rng fuel s0 = Except.ok s) :
    List.Chain' Rle (polledEvents s) ∧
    (∀ p ∈ polledEvents s, p.event_time ≤ s.global_time) ∧
    (∀ e ∈ s.event_list, s.global_time ≤ e.event_time) ∧
    s0.global_time ≤ s.global_time ∧
    (∀ s1 s2 : SimState, SimInv s1 → simStep rng s1 = Except.ok (some s2) →
      s1.global_time ≤ s2.global_time) ∧
    (∀ (s1 : SimState) (e : Event) (rest : List Event), SimInv s1 →
      s1.event_list = e :: rest → s1.global_time ≤ e.event_time) := by
  obtain ⟨hinv0, -⟩ := initSim_inv hrng hinit
  obtain ⟨hinv, hle⟩ := runSim_inv hrng fuel hinv0 hrun
  refine ⟨hinv.2.2.1.chain', hinv.2.2.2.1, hinv.2.1, hle, ?_, ?_⟩
  · intro s1 s2 hi hs
    exact (simStep_inv hrng hi hs).2
  · intro s1 e rest hi hl
    exact hi.2.1 e (by rw [hl]; exact List.mem_cons_self _ _)

theorem C4_monotonic_clock_witness :
    List.Chain' Rle (polledEvents c4s0) ∧
    (∀ p ∈ polledEvents c4s0, p.event_time ≤ c4s0.global_time) ∧
    (∀ e ∈ c4s0.event_list, c4s0.global_time ≤ e.event_time) ∧
    c4s0.global_time ≤ c4s0.global_time ∧
    (∀ s1 s2 : SimState, SimInv s1 → simStep oneRng s1 = Except.ok (some s2) →
      s1.global_time ≤ s2.global_time) ∧
    (∀ (s1 : SimState) (e : Event) (rest : List Event), SimInv s1 →
      s1.event_list = e :: rest → s1.global_time ≤ e.event_time) := by
  exact C4_monotonic_clock oneRng (fun _ => zero_le_one) 10000 0 c4s0 c4s0
    initSim_oneRng_eval rfl

/-- Claim C7: determinism.  The whole run is one deterministic function of
the configuration (arrival budget, with topology and sources fixed as in
the source) and of the single process-wide random stream: two runs with
identical stream and identical configuration produce identical sequences
of processed (time, kind, destination, origin) tuples.  The embedding has
exactly one stream cursor, threaded through every Source and Queue draw in
program order, because every ExpRandGenerator instance is stateless and
np.random.exponential always consults numpy's one global generator; the
second conjunct records that this single cursor only ever moves forward
along a run, so all entities consume successive positions of the one
stream. -/
theorem C7_determinism (rng1 rng2 : Nat → ℚ) (maxA fuel : Nat) (h : rng1 = rng2) :
    runTuples rng1 maxA fuel = runTuples rng2 maxA fuel ∧
    (∀ (fuel' : Nat) (s s' : SimState), runSim rng1 fuel' s = Except.ok s' →
      s.ridx ≤ s'.ridx) := by
  constructor
  · rw [h]
  · intro fuel' s s' hrun
    exact runSim_ridx fuel' hrun

theorem C7_determinism_witness :
    runTuples oneRng 10000 2 = runTuples oneRng 10000 2 ∧
    c4s0.ridx ≤ c4s0.ridx :=
  ⟨(C7_determinism oneRng oneRng 10000 2 rfl).1,
   (C7_determinism oneRng oneRng 10000 2 rfl).2 0 c4s0 c4s0 rfl⟩

/-- Claim C10: return-value protocol of add_packet and its use by the
simulator.  add_packet returns exactly -1 both on a drop (waiting deque
full) and on an enqueue (server busy), so the two are indistinguishable
from the return value; it returns the drawn service duration (and the
advanced stream cursor) exactly when service starts; with a nonnegative
draw the returned value exceeds -1 precisely when service started; and in
the simulator's ARRIVAL branch the new event list receives a Departure
event at clock + returned value if and only if the returned value exceeds
-1 (shown for an arrival with a router origin, where no next source
arrival is added). -/
theorem C10_return_protocol :
    (∀ (q : Queue) (e : Event) (t : ℚ) (rng : Nat → ℚ) (i : Nat), 0 ≤ rng i →
      (q.packets.length = q.size_limit →
        ∃ q', add_packet q e t rng i = Except.ok (q', -1, i)) ∧
      (q.packets.length ≠ q.size_limit → q.is_busy = true →
        ∃ q', add_packet q e t rng i = Except.ok (q', -1, i)) ∧
      (q.packets.length ≠ q.size_limit → q.is_busy = false →
        ∃ q', add_packet q e t rng i = Except.ok (q', rng i, i + 1) ∧ q'.is_busy = true) ∧
      (∀ (q' : Queue) (r : ℚ) (i' : Nat), add_packet q e t rng i = Except.ok (q', r, i') →
        (-1 < r ↔ (q.packets.length ≠ q.size_limit ∧ q.is_busy = false)))) ∧
    (∀ (rng : Nat → ℚ) (s s' : SimState) (event : Event) (rest : List Event)
      (q q' : Queue) (r : ℚ) (i' : Nat) (nm : String),
      s.event_list = event :: rest → event.type = Event.ARRIVAL →
      event.origin = Origin.router nm → 0 ≤ event.destination →
      s.queues[event.destination.toNat]? = some q →
      add_packet q event event.event_time rng s.ridx = Except.ok (q', r, i') →
      s.packets_arrived < s.max_arrivals →
      simStep rng s = Except.ok (some s') →
      s'.event_list =
        (if -1 < r then
          insert_event rest { event_time := event.event_time + r, type := Event.DEPARTURE
                              destination := event.destination
                              origin := Origin.router q'.name }
         else rest)) := by
  constructor
  · intro q e t rng i hr
    refine ⟨?_, ?_, ?_, ?_⟩
    · intro hfull
      exact ⟨_, add_packet_drop hfull⟩
    · intro h1 h2
      exact ⟨_, add_packet_enqueue h1 h2⟩
    · intro h1 h2
      refine ⟨_, add_packet_serve h1 h2, rfl⟩
    · intro q' r i' h
      constructor
      · intro hrpos
        by_contra hc
        rw [Classical.not_and_iff_or_not_not] at hc
        rcases hc with hc | hc
        · rw [Classical.not_not] at hc
          rw [add_packet_drop hc] at h
          obtain ⟨-, hr1, -⟩ : _ ∧ _ ∧ _ := by simpa using h
          rw [← hr1] at hrpos
          exact absurd hrpos (by norm_num)
        · have hc2 : q.is_busy = true := by
            cases hb : q.is_busy
            · exact absurd hb hc
            · rfl
          by_cases h1 : q.packets.length = q.size_limit
          · rw [add_packet_drop h1] at h
            obtain ⟨-, hr1, -⟩ : _ ∧ _ ∧ _ := by simpa using h
            rw [← hr1] at hrpos
            exact absurd hrpos (by norm_num)
          · rw [add_packet_enqueue h1 hc2] at h
            obtain ⟨-, hr1, -⟩ : _ ∧ _ ∧ _ := by simpa using h
            rw [← hr1] at hrpos
            exact absurd hrpos (by norm_num)
      · rintro ⟨h1, h2⟩
        rw [add_packet_serve h1 h2] at h
        obtain ⟨-, hr1, -⟩ : _ ∧ _ ∧ _ := by simpa using h
        rw [← hr1]
        exact lt_of_lt_of_le (by norm_num) hr
  · intro rng s s' event rest q q' r i' nm helist htype horig hd0 hq hadd hbud hstep
    unfold simStep at hstep
    rw [if_pos hbud, helist] at hstep
    dsimp only at hstep
    rw [if_pos htype, if_pos hd0, hq] at hstep
    dsimp only at hstep
    rw [hadd] at hstep
    dsimp only at hstep
    rw [horig] at hstep
    dsimp only at hstep
    simp only [Except.ok.injEq, Option.some.injEq] at hstep
    subst hstep
    rfl

theorem C10_return_protocol_witness :
    ((0 : ℚ) ≤ oneRng 0) ∧
    (∃ q', add_packet (mkQueue [] "Router Q0" 1) evA 0 oneRng 0
        = Except.ok (q', oneRng 0, 0 + 1) ∧ q'.is_busy = true) := by
  refine ⟨zero_le_one, ?_⟩
  exact (C10_return_protocol.1 (mkQueue [] "Router Q0" 1) evA 0 oneRng 0 zero_le_one).2.2.1
    (by decide) rfl
